import Mathlib

/-!
# Harmony Aura: edge scoring engine and AES-GCM envelope codec

A shallow embedding of `src/iot/esp32_s3_edge/SentinelEngine.h` and
`src/iot/shared/harmony_crypto_config.h`.

* The scoring engine is embedded twice. `computeCIS` and `computePdM` take every `float`
  operation exactly, over the rationals (`ℚ`); `computeCISFloat` and `computePdMFloat` round
  every operation as IEEE 754 does (binary32, with binary64 intermediates in `computePdM`).
  NaN and infinite values are outside both.
* The object state of `SentinelEngine` is a structure that every method maps to a new state.
* Bytes are `Fin 256`; an Arduino `String` and a C string are the list of their characters.
-/

namespace HarmonyAura

/-! ## Arduino helpers used by `SentinelEngine.h` -/

/-- Modelled from the spec: the `constrain` helper of `Arduino.h` (not part of the sources),
  the two-sided clamp `amt < low ? low : (amt > high ? high : amt)`. -/
def constrain (amt low high : ℚ) : ℚ :=
  if amt < low then low else if amt > high then high else amt

/-- Modelled from the spec: the `min` helper of `Arduino.h` (not part of the sources). -/
def Arduino.min (a b : ℚ) : ℚ := if a < b then a else b

/-- Modelled from the spec: the `max` helper of `Arduino.h` (not part of the sources). -/
def Arduino.max (a b : ℚ) : ℚ := if a > b then a else b

/-! ## `SentinelEngine` -/

/-- The public result fields of `class SentinelEngine`, with their initialisers. -/
structure SentinelEngine where
  edgeCIS : ℚ := 0
  edgeCISLevel : String := "Safe"
  edgeFatigue : ℚ := 0
  edgeStress : ℚ := 0
  edgePdmHealth : ℚ := 100
  edgePdmStatus : String := "Healthy"
  deriving DecidableEq

/-- The local `raw_cis` of `computeCIS`: the weighted fusion of the normalised risks
  (lines 26-43). `humidity` is a parameter of the method that its body never reads. -/
def SentinelEngine.raw_cis (hr temp humidity gas machineStress spo2 noise : ℚ) : ℚ :=
  let _ := humidity
  let hr_norm := constrain ((hr - 72) / 108) 0 1
  let spo2_norm := constrain ((98 - spo2) / 10) 0 1
  let noise_norm := constrain ((noise - 60) / 40) 0 1
  let heat_norm := constrain ((temp - 30) / 15) 0 1
  let gas_norm := constrain (gas / 100) 0 1
  let env_norm := Arduino.min 1 (heat_norm + gas_norm)
  let machine_norm := constrain (machineStress / 100) 0 1
  (0.2 * hr_norm) + (0.2 * spo2_norm) + (0.1 * noise_norm) + (0.2 * env_norm)
    + (0.3 * machine_norm)

/-- The method `SentinelEngine::computeCIS` (lines 21-54), every operation taken exactly. -/
def SentinelEngine.computeCIS (self : SentinelEngine)
    (hr temp humidity gas machineStress spo2 noise : ℚ) : SentinelEngine :=
  let hr_norm := constrain ((hr - 72) / 108) 0 1
  let noise_norm := constrain ((noise - 60) / 40) 0 1
  let raw_cis := SentinelEngine.raw_cis hr temp humidity gas machineStress spo2 noise
  let edgeCIS := Arduino.max 0 (Arduino.min 1 raw_cis)
  let edgeFatigue := hr_norm * 100
  let edgeStress := (hr_norm * 50) + (noise_norm * 50)
  let edgeCISLevel :=
    if edgeCIS ≥ 0.75 then "Critical"
    else if edgeCIS ≥ 0.40 then "Warning"
    else "Safe"
  { self with
    edgeCIS := edgeCIS, edgeCISLevel := edgeCISLevel,
    edgeFatigue := edgeFatigue, edgeStress := edgeStress }

/-- The local `health` of `computePdM` just before the clamp (lines 63-73): the
  subtractive degradation model, one guarded update after the other. -/
def SentinelEngine.health (engineLoad coolantTemp vibration degradation stressIndex : ℚ) : ℚ :=
  let health : ℚ := 100
  let health := if engineLoad > 80 then health - (engineLoad - 80) * 1.5 else health
  let health := if coolantTemp > 85 then health - (coolantTemp - 85) * 2 else health
  let health := if vibration > 6 then health - (vibration - 6) * 3 else health
  let health := health - degradation * 500
  let health := if stressIndex > 60 then health - (stressIndex - 60) * 0.5 else health
  health

/-- The method `SentinelEngine::computePdM` (lines 59-81), every operation taken exactly. -/
def SentinelEngine.computePdM (self : SentinelEngine)
    (engineLoad coolantTemp vibration degradation stressIndex : ℚ) : SentinelEngine :=
  let health := SentinelEngine.health engineLoad coolantTemp vibration degradation stressIndex
  let edgePdmHealth := Arduino.max 0 (Arduino.min 100 health)
  let edgePdmStatus :=
    if edgePdmHealth ≥ 80 then "Healthy"
    else if edgePdmHealth ≥ 50 then "Degraded"
    else if edgePdmHealth ≥ 20 then "At Risk"
    else "Critical"
  { self with edgePdmHealth := edgePdmHealth, edgePdmStatus := edgePdmStatus }

/-! ## Binary floating point

The methods of `SentinelEngine` compute in `float` (IEEE 754 binary32), `computePdM` with
`double` (binary64) intermediates. The definitions above drop every rounding; the ones below keep
it. A floating value is the rational it stands for; a result that is not finite has no value. -/

/-- The power `2 ^ k` for an integer exponent. -/
def pow2 (k : Int) : ℚ :=
  if 0 ≤ k then ((2 ^ k.toNat : Nat) : ℚ) else 1 / ((2 ^ (-k).toNat : Nat) : ℚ)

/-- The magnitude of a rational. -/
def magnitude (x : ℚ) : ℚ := if x < 0 then -x else x

/-- The position of the leading bit of `n` (0 for `n < 2`), by halving at most `fuel` times. -/
def log2F : Nat → Nat → Nat
  | 0, _ => 0
  | fuel + 1, n => if n < 2 then 0 else log2F fuel (n / 2) + 1

/-- The binary exponent of a non-zero rational: the `e` with `2 ^ e ≤ |x| < 2 ^ (e + 1)`. -/
def ilog2 (x : ℚ) : Int :=
  let d : Int := (log2F x.num.natAbs x.num.natAbs : Int) - (log2F x.den x.den : Int)
  if pow2 d ≤ magnitude x then d else d - 1

/-- Rounding to the nearest integer, a tie going to the even one. -/
def roundHalfEven (y : ℚ) : Int :=
  let k : Int := y.num / (y.den : Int)
  let r : ℚ := y - k
  if r < 1 / 2 then k else if r > 1 / 2 then k + 1 else if k % 2 = 0 then k else k + 1

/-- Rounding to the nearest value of a binary format with `p` significant bits, least quantum
  `2 ^ qmin` (the spacing of the subnormal values) and largest exponent `emax`, ties to even;
  `none` when the rounded magnitude reaches `2 ^ (emax + 1)`, where the format overflows. -/
def roundIEEE (p : Nat) (qmin emax : Int) (x : ℚ) : Option ℚ :=
  if x = 0 then some 0
  else
    let q := max (ilog2 x - ((p : Int) - 1)) qmin
    let r : ℚ := (roundHalfEven (x / pow2 q) : ℚ) * pow2 q
    if magnitude r < pow2 (emax + 1) then some r else none

/-- Rounding to `float`. -/
def Binary32.round (x : ℚ) : Option ℚ := roundIEEE 24 (-149) 127 x

/-- Rounding to `double`. -/
def Binary64.round (x : ℚ) : Option ℚ := roundIEEE 53 (-1074) 1023 x

/-- Applies a rounded operation to two floating values, when both are finite. -/
def finite2 (op : ℚ → ℚ → Option ℚ) (a b : Option ℚ) : Option ℚ :=
  match a, b with
  | some x, some y => op x y
  | _, _ => none

def Binary32.add (a b : Option ℚ) : Option ℚ := finite2 (fun x y => Binary32.round (x + y)) a b
def Binary32.sub (a b : Option ℚ) : Option ℚ := finite2 (fun x y => Binary32.round (x - y)) a b
def Binary32.mul (a b : Option ℚ) : Option ℚ := finite2 (fun x y => Binary32.round (x * y)) a b
def Binary32.div (a b : Option ℚ) : Option ℚ := finite2 (fun x y => Binary32.round (x / y)) a b
def Binary64.sub (a b : Option ℚ) : Option ℚ := finite2 (fun x y => Binary64.round (x - y)) a b
def Binary64.mul (a b : Option ℚ) : Option ℚ := finite2 (fun x y => Binary64.round (x * y)) a b

/-- The values `computeCIS` stores, in `float` arithmetic (lines 26-49): `edgeCIS`,
  `edgeFatigue` and `edgeStress`. Every operation on `float` operands rounds to `float` and the
  constants with suffix `f` are rounded to `float`. -/
def SentinelEngine.cisFloat (hr temp humidity gas machineStress spo2 noise : ℚ) :
    Option ℚ × Option ℚ × Option ℚ :=
  let _ := humidity
  let f32 := Binary32.round
  let hr_norm := (Binary32.div (Binary32.sub (some hr) (f32 72)) (f32 108)).map
    (fun x => constrain x 0 1)
  let spo2_norm := (Binary32.div (Binary32.sub (f32 98) (some spo2)) (f32 10)).map
    (fun x => constrain x 0 1)
  let noise_norm := (Binary32.div (Binary32.sub (some noise) (f32 60)) (f32 40)).map
    (fun x => constrain x 0 1)
  let heat_norm := (Binary32.div (Binary32.sub (some temp) (f32 30)) (f32 15)).map
    (fun x => constrain x 0 1)
  let gas_norm := (Binary32.div (some gas) (f32 100)).map (fun x => constrain x 0 1)
  let env_norm := (Binary32.add heat_norm gas_norm).map (fun x => Arduino.min 1 x)
  let machine_norm := (Binary32.div (some machineStress) (f32 100)).map
    (fun x => constrain x 0 1)
  let raw_cis :=
    Binary32.add
      (Binary32.add
        (Binary32.add
          (Binary32.add (Binary32.mul (f32 0.2) hr_norm) (Binary32.mul (f32 0.2) spo2_norm))
          (Binary32.mul (f32 0.1) noise_norm))
        (Binary32.mul (f32 0.2) env_norm))
      (Binary32.mul (f32 0.3) machine_norm)
  let edgeCIS := raw_cis.map (fun x => Arduino.max 0 (Arduino.min 1 x))
  let edgeFatigue := Binary32.mul hr_norm (f32 100)
  let edgeStress :=
    Binary32.add (Binary32.mul hr_norm (f32 50)) (Binary32.mul noise_norm (f32 50))
  (edgeCIS, edgeFatigue, edgeStress)

/-- The method `SentinelEngine::computeCIS` (lines 21-54) in `float` arithmetic; the
  comparisons with `0.75` and `0.40` are made in `double`. The arguments are `float` values;
  there is no result when a value of the run is not finite. -/
def SentinelEngine.computeCISFloat (self : SentinelEngine)
    (hr temp humidity gas machineStress spo2 noise : ℚ) : Option SentinelEngine :=
  match SentinelEngine.cisFloat hr temp humidity gas machineStress spo2 noise,
      Binary64.round 0.75, Binary64.round 0.40 with
  | (some edgeCIS, some edgeFatigue, some edgeStress), some critical, some warning =>
    some { self with
      edgeCIS := edgeCIS,
      edgeCISLevel :=
        if edgeCIS ≥ critical then "Critical" else if edgeCIS ≥ warning then "Warning"
        else "Safe",
      edgeFatigue := edgeFatigue, edgeStress := edgeStress }
  | _, _, _ => none

/-- One byte (`uint8_t`, `char`). -/
abbrev Byte := Fin 256

/-- A run of bytes: the contents of a buffer, of a C string or of an Arduino `String`. -/
abbrev Bytes := List Byte

def AES_KEY_SIZE : Nat := 32
def GCM_IV_SIZE : Nat := 12
def GCM_TAG_SIZE : Nat := 16
def MAX_PLAINTEXT : Nat := 512
def MAX_B64_SIZE : Nat := 700

/-- The pre-shared key `HARMONY_AES_KEY[32]`. -/
def HARMONY_AES_KEY : Bytes :=
  [0x4A, 0x7B, 0x2C, 0x9D, 0x1E, 0x5F, 0x8A, 0x3B,
   0x6C, 0x0D, 0xFE, 0x4F, 0xA0, 0x71, 0xE2, 0x53,
   0xB4, 0x85, 0xD6, 0x27, 0xC8, 0x19, 0x6A, 0xFB,
   0x3C, 0xED, 0x7E, 0x0F, 0x90, 0x61, 0xB2, 0x43]

/-- The services the header calls and does not define (ESP-IDF, libc, mbedTLS), and the
  contents of uninitialised memory. They are parameters of every function below.

* `esp_random k` is the 32-bit word returned by the `k`-th call of `esp_random()` in a run;
* `malloc k` tells whether the `k`-th `malloc` of a run returns a non-null pointer;
* `base64_encode data` is the text `mbedtls_base64_encode` writes for `data`;
* `base64_decode text` is the data the text stands for, `none` when the text has a character
  that is invalid for the encoding;
* `gcm_setkey key keybits` is the return code of `mbedtls_gcm_setkey`;
* `gcm_crypt_and_tag key iv input` is the return code of `mbedtls_gcm_crypt_and_tag` in
  encryption mode without additional data, with the bytes it leaves in the output buffer and in
  the tag buffer;
* `gcm_auth_decrypt key iv tag input` is the return code of `mbedtls_gcm_auth_decrypt` without
  additional data, with the bytes it leaves in the output buffer (whatever the return code);
* `stack i` is the byte found at offset `i` of the uninitialised array `plaintext` of
  `decryptPayload`. -/
structure Platform where
  esp_random : Nat → Nat
  malloc : Nat → Bool
  base64_encode : Bytes → Bytes
  base64_decode : Bytes → Option Bytes
  gcm_setkey : Bytes → Nat → Int
  gcm_crypt_and_tag : Bytes → Bytes → Bytes → Int × Bytes × Bytes
  gcm_auth_decrypt : Bytes → Bytes → Bytes → Bytes → Int × Bytes
  stack : Nat → Byte

/-- The calls a run makes to the outside, in program order. -/
inductive Call where
  | esp_random
  | malloc
  | free
  | mbedtls_base64_encode
  | mbedtls_base64_decode
  | mbedtls_gcm_init
  | mbedtls_gcm_setkey
  | mbedtls_gcm_crypt_and_tag
  | mbedtls_gcm_auth_decrypt
  | mbedtls_gcm_free
  | Serial_println (line : String)
  deriving DecidableEq

/-- The characters of the C string that starts at `mem`: those before the first NUL. This is
  what `String((char*)mem)` holds and what `strlen` counts. -/
def cString (mem : Bytes) : Bytes := mem.takeWhile (fun b => b ≠ 0)

def strlen (s : Bytes) : Nat := (cString s).length

/-- The array store `buf[i] = b`; `none` when `i` is not an index of the array. -/
def store (buf : Bytes) (i : Nat) (b : Byte) : Option Bytes :=
  if i < buf.length then some (buf.set i b) else none

/-- The contents of a buffer after a library call has written `data` from its start. -/
def written (buf data : Bytes) : Bytes := data ++ buf.drop data.length

def MBEDTLS_ERR_BASE64_BUFFER_TOO_SMALL : Int := -0x002A
def MBEDTLS_ERR_BASE64_INVALID_CHARACTER : Int := -0x002C

/-- Modelled from the spec: `mbedtls_base64_decode(dst, dlen, &olen, src, slen)` of mbedTLS
  (not part of the sources), by its documented contract: an invalid character is an error, a
  destination shorter than the decoded data is an error, otherwise the return code is 0 and
  the decoded data, `olen` bytes, is in `dst`. The pair is the return code and what was
  written. -/
def mbedtls_base64_decode (P : Platform) (dlen : Nat) (src : Bytes) : Int × Bytes :=
  match P.base64_decode src with
  | none => (MBEDTLS_ERR_BASE64_INVALID_CHARACTER, [])
  | some data =>
    if dlen < data.length then (MBEDTLS_ERR_BASE64_BUFFER_TOO_SMALL, []) else (0, data)

/-! ## `harmony_crypto_config.h`: the functions -/

/-- The function `generateRandomIV` (lines 64-69): cell `i` of the buffer receives the low
  8 bits of the `i`-th draw, for every `i < len`; the result is the `len` cells written. -/
def generateRandomIV (P : Platform) (len : Nat) : Bytes :=
  (List.range len).map (fun i => (⟨P.esp_random i % 256, Nat.mod_lt _ (by decide)⟩ : Byte))

/-- The function `base64Encode` (lines 75-85); its `malloc` is the `k`-th of the run. The
  result is the returned `String` with the calls made. -/
def base64Encode (P : Platform) (k : Nat) (data : Bytes) : Bytes × List Call :=
  let text := P.base64_encode data
  if !P.malloc k then ([], [.mbedtls_base64_encode, .malloc])
  else
    let buf := text ++ [0]
    (cString buf, [.mbedtls_base64_encode, .malloc, .mbedtls_base64_encode, .free])

/-- The function `base64Decode` (lines 92-98): the returned `int` (number of decoded bytes,
  or -1) and the contents written to `output`. -/
def base64Decode (P : Platform) (input : Bytes) (maxLen : Nat) : Int × Bytes :=
  let r := mbedtls_base64_decode P maxLen input
  if r.1 ≠ 0 then (-1, r.2) else ((r.2.length : Int), r.2)

/-- The structure `EncryptedPayload` (lines 105-109); the field `at` is spelled `at_`. -/
structure EncryptedPayload where
  iv : Bytes
  ct : Bytes
  at_ : Bytes
  deriving DecidableEq

/-- What a call of `encryptPayload` leaves: the returned `bool`, the caller's `out`, and
  the calls made. -/
structure EncryptRun where
  ret : Bool
  out : EncryptedPayload
  calls : List Call
  deriving DecidableEq

/-- The function `encryptPayload` (lines 111-159). `plaintext` is the memory at the pointer,
  read as a C string; `out` is the caller's structure before the call. -/
def encryptPayload (P : Platform) (plaintext : Bytes) (out : EncryptedPayload) : EncryptRun :=
  let ptLen := strlen plaintext
  if ptLen = 0 ∨ ptLen > MAX_PLAINTEXT then ⟨false, out, []⟩
  else
    let iv := generateRandomIV P GCM_IV_SIZE
    let drawn := List.replicate GCM_IV_SIZE Call.esp_random
    if !P.malloc 0 then ⟨false, out, drawn ++ [.malloc]⟩
    else
      let ret := P.gcm_setkey HARMONY_AES_KEY (AES_KEY_SIZE * 8)
      if ret ≠ 0 then
        ⟨false, out, drawn ++ [.malloc, .mbedtls_gcm_init, .mbedtls_gcm_setkey,
          .mbedtls_gcm_free, .free]⟩
      else
        let r := P.gcm_crypt_and_tag HARMONY_AES_KEY iv (plaintext.take ptLen)
        let ciphertext := r.2.1
        let tag := r.2.2
        if r.1 ≠ 0 then
          ⟨false, out, drawn ++ [.malloc, .mbedtls_gcm_init, .mbedtls_gcm_setkey,
            .mbedtls_gcm_crypt_and_tag, .mbedtls_gcm_free, .free]⟩
        else
          let e1 := base64Encode P 1 iv
          let e2 := base64Encode P 2 ciphertext
          let e3 := base64Encode P 3 tag
          ⟨true, { iv := e1.1, ct := e2.1, at_ := e3.1 },
            drawn ++ [.malloc, .mbedtls_gcm_init, .mbedtls_gcm_setkey,
              .mbedtls_gcm_crypt_and_tag, .mbedtls_gcm_free] ++ e1.2 ++ e2.2 ++ e3.2 ++ [.free]⟩

/-- What a call of `decryptPayload` leaves: the returned `String` and the calls made. -/
structure DecryptRun where
  result : Bytes
  calls : List Call
  deriving DecidableEq

def decodeFailedLine : String := "[CRYPTO] Base64 decode failed"
def tamperLine : String := "[CRYPTO] ⚠ TAMPER DETECTED — Auth tag mismatch!"

/-- The function `decryptPayload` (lines 166-211). The value is `none` when the run stores
  outside an array, which leaves the behaviour of the program undefined. -/
def decryptPayload (P : Platform) (ivB64 ctB64 atB64 : Bytes) : Option DecryptRun :=
  let plaintext : Bytes := (List.range MAX_PLAINTEXT).map P.stack
  let dIv := base64Decode P ivB64 GCM_IV_SIZE
  let dTag := base64Decode P atB64 GCM_TAG_SIZE
  let dCt := base64Decode P ctB64 MAX_PLAINTEXT
  let ivLen := dIv.1
  let tagLen := dTag.1
  let ctLen := dCt.1
  let decoded := List.replicate 3 Call.mbedtls_base64_decode
  if ivLen ≠ GCM_IV_SIZE ∨ tagLen ≠ GCM_TAG_SIZE ∨ ctLen < 1 then
    some ⟨[], decoded ++ [.Serial_println decodeFailedLine]⟩
  else
    let ret := P.gcm_setkey HARMONY_AES_KEY (AES_KEY_SIZE * 8)
    if ret ≠ 0 then
      some ⟨[], decoded ++ [.mbedtls_gcm_init, .mbedtls_gcm_setkey, .mbedtls_gcm_free]⟩
    else
      let r := P.gcm_auth_decrypt HARMONY_AES_KEY dIv.2 dTag.2 dCt.2
      let plaintext := written plaintext r.2
      if r.1 ≠ 0 then
        some ⟨[], decoded ++ [.mbedtls_gcm_init, .mbedtls_gcm_setkey, .mbedtls_gcm_auth_decrypt,
          .mbedtls_gcm_free, .Serial_println tamperLine]⟩
      else
        match store plaintext ctLen.toNat 0 with
        | none => none
        | some plaintext =>
          some ⟨cString plaintext, decoded ++ [.mbedtls_gcm_init, .mbedtls_gcm_setkey,
            .mbedtls_gcm_auth_decrypt, .mbedtls_gcm_free]⟩

/-! ## A concrete platform for worked runs -/

/-- A printable two-characters-per-byte transport encoding (letters `A` to `P`). -/
def Demo.encode (data : Bytes) : Bytes :=
  data.flatMap (fun b => [(65 + b / 16 : Byte), (65 + b % 16 : Byte)])

def Demo.decode : Bytes → Option Bytes
  | [] => some []
  | [_] => none
  | hi :: lo :: rest =>
    if 65 ≤ hi.val ∧ hi.val < 81 ∧ 65 ≤ lo.val ∧ lo.val < 81 then
      (Demo.decode rest).map (fun data => ((hi - 65) * 16 + (lo - 65) : Byte) :: data)
    else none

/-- The 16-byte tag of the stand-in cipher: the byte sum of IV and ciphertext, repeated. -/
def Demo.tag (iv ct : Bytes) : Bytes := List.replicate GCM_TAG_SIZE ((iv ++ ct).sum)

def MBEDTLS_ERR_GCM_AUTH_FAILED : Int := -0x0012
def MBEDTLS_ERR_GCM_BAD_INPUT : Int := -0x0014

/-- A stand-in platform on which the functions can be run: a counting random source, an
  allocator that never fails, the encoding `Demo.encode`, and a cipher that adds one to every
  byte and authenticates with `Demo.tag`. -/
def Demo : Platform where
  esp_random := fun k => 0x1000 + 259 * k
  malloc := fun _ => true
  base64_encode := Demo.encode
  base64_decode := Demo.decode
  gcm_setkey := fun key keybits => if key.length * 8 = keybits then 0 else MBEDTLS_ERR_GCM_BAD_INPUT
  gcm_crypt_and_tag := fun _ iv input =>
    (0, input.map (fun b => b + 1), Demo.tag iv (input.map (fun b => b + 1)))
  gcm_auth_decrypt := fun _ iv tag input =>
    if tag = Demo.tag iv input then (0, input.map (fun b => b - 1))
    else (MBEDTLS_ERR_GCM_AUTH_FAILED, List.replicate input.length 0)
  stack := fun _ => 0xAA

/-- The envelope `encryptPayload` produces on `Demo` for the two-character text `Hi`. -/
def Demo.sealed : EncryptedPayload :=
  (encryptPayload Demo [72, 105] ⟨[], [], []⟩).out

/-- The envelope `Demo.sealed` with the last character of its tag field changed. -/
def Demo.tampered : EncryptedPayload :=
  { Demo.sealed with at_ := Demo.sealed.at_.dropLast ++ [75] }

/-- An envelope whose `iv` field is the empty text (it decodes to 0 bytes, not 12). -/
def Demo.truncated : EncryptedPayload :=
  { Demo.sealed with iv := [] }

/-- An envelope of `Demo` whose authenticated plaintext is the single byte 0: the IV is twelve
  zero bytes, the ciphertext the byte 1, the tag the one `Demo.tag` gives them. -/
def Demo.sealedNul : EncryptedPayload :=
  { iv := Demo.encode (List.replicate 12 0),
    ct := Demo.encode [1],
    at_ := Demo.encode (Demo.tag (List.replicate 12 0) [1]) }

/-! ## Predicates on envelopes, used to state the claims -/

/-- The three fields decode, to `iv`, `tag` and `ct`, and the decoded lengths are the valid
  ones: 12 bytes, 16 bytes, and 1 to `MAX_PLAINTEXT` bytes. -/
def Decodes (P : Platform) (ivB64 ctB64 atB64 iv tag ct : Bytes) : Prop :=
  P.base64_decode ivB64 = some iv ∧ iv.length = GCM_IV_SIZE ∧
  P.base64_decode atB64 = some tag ∧ tag.length = GCM_TAG_SIZE ∧
  P.base64_decode ctB64 = some ct ∧ 1 ≤ ct.length ∧ ct.length ≤ MAX_PLAINTEXT

/-- The envelope is malformed: a field is not valid text or has a wrong decoded length. -/
def Malformed (P : Platform) (ivB64 ctB64 atB64 : Bytes) : Prop :=
  ¬ ∃ iv tag ct, Decodes P ivB64 ctB64 atB64 iv tag ct

/-- The envelope is rejected for a tag mismatch: it is well formed, the key installs, and the
  authenticated decryption returns a non-zero code. -/
def TagMismatch (P : Platform) (ivB64 ctB64 atB64 : Bytes) : Prop :=
  ∃ iv tag ct, Decodes P ivB64 ctB64 atB64 iv tag ct ∧
    P.gcm_setkey HARMONY_AES_KEY (AES_KEY_SIZE * 8) = 0 ∧
    (P.gcm_auth_decrypt HARMONY_AES_KEY iv tag ct).1 ≠ 0

/-- Every step of `decryptPayload` succeeds on the envelope, and the authenticated
  decryption leaves the plaintext `pt`, as long as the ciphertext `ct`. -/
def Authenticates (P : Platform) (ivB64 ctB64 atB64 ct pt : Bytes) : Prop :=
  ∃ iv tag, Decodes P ivB64 ctB64 atB64 iv tag ct ∧
    P.gcm_setkey HARMONY_AES_KEY (AES_KEY_SIZE * 8) = 0 ∧
    P.gcm_auth_decrypt HARMONY_AES_KEY iv tag ct = (0, pt) ∧ pt.length = ct.length

/-- The round-trip assumption on the cipher: when `gcm_crypt_and_tag` returns 0, it leaves a
  ciphertext as long as its input and a 16-byte tag, and `gcm_auth_decrypt` accepts them under
  the same key and IV and leaves the input again. -/
def CipherInverts (P : Platform) : Prop :=
  ∀ key iv input, (P.gcm_crypt_and_tag key iv input).1 = 0 →
    (P.gcm_crypt_and_tag key iv input).2.1.length = input.length ∧
    (P.gcm_crypt_and_tag key iv input).2.2.length = GCM_TAG_SIZE ∧
    P.gcm_auth_decrypt key iv (P.gcm_crypt_and_tag key iv input).2.2
      (P.gcm_crypt_and_tag key iv input).2.1 = (0, input)

/-- The round-trip assumption on the transport encoding: decoding inverts encoding, and the
  encoded text has no NUL character. -/
def Base64Inverts (P : Platform) : Prop :=
  ∀ data, P.base64_decode (P.base64_encode data) = some data ∧
    ∀ c ∈ P.base64_encode data, c ≠ 0

/-- A plaintext of exactly `MAX_PLAINTEXT` = 512 characters `A`. -/
def Demo.longest : Bytes := List.replicate 512 65

/-- The platform `Demo` with a heap that serves the first `malloc` of a run and no other. -/
def Demo.lowMemory : Platform :=
  { Demo with malloc := fun k => decide (k = 0) }

/-- The platform `Demo` with a heap that serves no `malloc` at all. -/
def Demo.noMemory : Platform :=
  { Demo with malloc := fun _ => false }

/-- The envelope `encryptPayload` produces on `Demo` for the plaintext `Demo.longest`. -/
def Demo.sealedLongest : EncryptedPayload :=
  (encryptPayload Demo Demo.longest ⟨[], [], []⟩).out

/-! ## Definitions that follow the words of the specification -/

theorem clamp01_bounds (hi x : ℚ) (h : 0 ≤ hi) :
    0 ≤ Arduino.max 0 (Arduino.min hi x) ∧ Arduino.max 0 (Arduino.min hi x) ≤ hi := by
  unfold Arduino.max Arduino.min
  split_ifs <;> constructor <;> linarith

theorem level_ne : "Critical" ≠ "Warning" ∧ "Critical" ≠ "Safe" ∧ "Warning" ≠ "Safe" := by
  decide

theorem status_ne :
    "Healthy" ≠ "Degraded" ∧ "Healthy" ≠ "At Risk" ∧ "Healthy" ≠ "Critical" ∧
    "Degraded" ≠ "At Risk" ∧ "Degraded" ≠ "Critical" ∧ "At Risk" ≠ "Critical" := by
  decide

/-! ## Scoring engine: settled claims -/

/-- C1: for all seven rational inputs, in or out of range, and any prior state,
  `computeCIS` leaves `edgeCIS` in the closed interval from 0 to 1. -/
theorem computeCIS_edgeCIS_in_unit_interval (self : SentinelEngine)
    (hr temp humidity gas machineStress spo2 noise : ℚ) :
    0 ≤ (self.computeCIS hr temp humidity gas machineStress spo2 noise).edgeCIS ∧
    (self.computeCIS hr temp humidity gas machineStress spo2 noise).edgeCIS ≤ 1 := by
  simp only [SentinelEngine.computeCIS]
  exact clamp01_bounds 1 _ (by norm_num)

/-- C2: after `computeCIS` the level is the threshold partition of the index just computed
  (Critical from 0.75, Warning from 0.40 up to 0.75, Safe below 0.40); whenever the index is
  exactly 0.40 the level is Warning, whenever it is exactly 0.75 the level is Critical, and
  each of the three levels is produced by some input. -/
theorem computeCIS_level_is_threshold_partition :
    (∀ (self : SentinelEngine) (hr temp humidity gas machineStress spo2 noise : ℚ),
      ((self.computeCIS hr temp humidity gas machineStress spo2 noise).edgeCISLevel = "Critical" ↔
        (self.computeCIS hr temp humidity gas machineStress spo2 noise).edgeCIS ≥ 0.75) ∧
      ((self.computeCIS hr temp humidity gas machineStress spo2 noise).edgeCISLevel = "Warning" ↔
        0.40 ≤ (self.computeCIS hr temp humidity gas machineStress spo2 noise).edgeCIS ∧
        (self.computeCIS hr temp humidity gas machineStress spo2 noise).edgeCIS < 0.75) ∧
      ((self.computeCIS hr temp humidity gas machineStress spo2 noise).edgeCISLevel = "Safe" ↔
        (self.computeCIS hr temp humidity gas machineStress spo2 noise).edgeCIS < 0.40)) ∧
    (∀ (self : SentinelEngine) (hr temp humidity gas machineStress spo2 noise : ℚ),
      (self.computeCIS hr temp humidity gas machineStress spo2 noise).edgeCIS = 0.40 →
      (self.computeCIS hr temp humidity gas machineStress spo2 noise).edgeCISLevel = "Warning") ∧
    (∀ (self : SentinelEngine) (hr temp humidity gas machineStress spo2 noise : ℚ),
      (self.computeCIS hr temp humidity gas machineStress spo2 noise).edgeCIS = 0.75 →
      (self.computeCIS hr temp humidity gas machineStress spo2 noise).edgeCISLevel = "Critical") ∧
    (({} : SentinelEngine).computeCIS 180 45 50 100 100 88 100).edgeCISLevel = "Critical" ∧
    (({} : SentinelEngine).computeCIS 180 30 50 0 100 98 60).edgeCISLevel = "Warning" ∧
    (({} : SentinelEngine).computeCIS 72 30 50 0 0 98 60).edgeCISLevel = "Safe" := by
  have hpart : ∀ (self : SentinelEngine) (hr temp humidity gas machineStress spo2 noise : ℚ),
      ((self.computeCIS hr temp humidity gas machineStress spo2 noise).edgeCISLevel = "Critical" ↔
        (self.computeCIS hr temp humidity gas machineStress spo2 noise).edgeCIS ≥ 0.75) ∧
      ((self.computeCIS hr temp humidity gas machineStress spo2 noise).edgeCISLevel = "Warning" ↔
        0.40 ≤ (self.computeCIS hr temp humidity gas machineStress spo2 noise).edgeCIS ∧
        (self.computeCIS hr temp humidity gas machineStress spo2 noise).edgeCIS < 0.75) ∧
      ((self.computeCIS hr temp humidity gas machineStress spo2 noise).edgeCISLevel = "Safe" ↔
        (self.computeCIS hr temp humidity gas machineStress spo2 noise).edgeCIS < 0.40) := by
    intro self hr temp humidity gas machineStress spo2 noise
    obtain ⟨hcw, hcs, hws⟩ := level_ne
    simp only [SentinelEngine.computeCIS]
    generalize Arduino.max 0 (Arduino.min 1
      (SentinelEngine.raw_cis hr temp humidity gas machineStress spo2 noise)) = c
    by_cases h1 : c ≥ 0.75
    · have h2 : (0.40 : ℚ) ≤ c := by norm_num at h1 ⊢; linarith
      simp [h1, hcw, hcs, not_lt.mpr h2]
    · by_cases h2 : c ≥ 0.40
      · simp [h1, h2, hcw.symm, hws, not_lt.mpr h2, lt_of_not_ge h1]
      · simp [h1, h2, hcs.symm, hws.symm, lt_of_not_ge h2]
  refine ⟨hpart, ?_, ?_, ?_, ?_, ?_⟩
  · intro self hr temp humidity gas machineStress spo2 noise h
    refine (hpart self hr temp humidity gas machineStress spo2 noise).2.1.mpr ?_
    rw [h]
    norm_num
  · intro self hr temp humidity gas machineStress spo2 noise h
    refine (hpart self hr temp humidity gas machineStress spo2 noise).1.mpr ?_
    rw [h]
  · norm_num [SentinelEngine.computeCIS, SentinelEngine.raw_cis, constrain, Arduino.min,
      Arduino.max]
  · norm_num [SentinelEngine.computeCIS, SentinelEngine.raw_cis, constrain, Arduino.min,
      Arduino.max]
  · norm_num [SentinelEngine.computeCIS, SentinelEngine.raw_cis, constrain, Arduino.min,
      Arduino.max]

/-- C3: for all five rational inputs, negative and arbitrarily large ones included, and any
  prior state, `computePdM` leaves `edgePdmHealth` in the closed interval from 0 to 100. -/
theorem computePdM_edgePdmHealth_in_range (self : SentinelEngine)
    (engineLoad coolantTemp vibration degradation stressIndex : ℚ) :
    0 ≤ (self.computePdM engineLoad coolantTemp vibration degradation stressIndex).edgePdmHealth ∧
    (self.computePdM engineLoad coolantTemp vibration degradation stressIndex).edgePdmHealth
      ≤ 100 := by
  simp only [SentinelEngine.computePdM]
  exact clamp01_bounds 100 _ (by norm_num)

/-- C4: after `computePdM` the status is the threshold partition of the health just computed:
  Healthy from 80, Degraded from 50 up to 80, At Risk from 20 up to 50, Critical below 20. -/
theorem computePdM_status_is_threshold_partition (self : SentinelEngine)
    (engineLoad coolantTemp vibration degradation stressIndex : ℚ) :
    ((self.computePdM engineLoad coolantTemp vibration degradation stressIndex).edgePdmStatus
        = "Healthy" ↔
      (self.computePdM engineLoad coolantTemp vibration degradation stressIndex).edgePdmHealth
        ≥ 80) ∧
    ((self.computePdM engineLoad coolantTemp vibration degradation stressIndex).edgePdmStatus
        = "Degraded" ↔
      50 ≤ (self.computePdM engineLoad coolantTemp vibration degradation stressIndex).edgePdmHealth
      ∧ (self.computePdM engineLoad coolantTemp vibration degradation stressIndex).edgePdmHealth
        < 80) ∧
    ((self.computePdM engineLoad coolantTemp vibration degradation stressIndex).edgePdmStatus
        = "At Risk" ↔
      20 ≤ (self.computePdM engineLoad coolantTemp vibration degradation stressIndex).edgePdmHealth
      ∧ (self.computePdM engineLoad coolantTemp vibration degradation stressIndex).edgePdmHealth
        < 50) ∧
    ((self.computePdM engineLoad coolantTemp vibration degradation stressIndex).edgePdmStatus
        = "Critical" ↔
      (self.computePdM engineLoad coolantTemp vibration degradation stressIndex).edgePdmHealth
        < 20) := by
  obtain ⟨hhd, hha, hhc, hda, hdc, hac⟩ := status_ne
  simp only [SentinelEngine.computePdM]
  generalize Arduino.max 0 (Arduino.min 100
    (SentinelEngine.health engineLoad coolantTemp vibration degradation stressIndex)) = h
  by_cases h1 : h ≥ 80
  · have h2 : (50 : ℚ) ≤ h := by linarith
    have h3 : (20 : ℚ) ≤ h := by linarith
    simp [h1, h2, hhd, hha, hhc, not_lt.mpr h3, not_lt.mpr h2, not_lt.mpr h1]
  · by_cases h2 : h ≥ 50
    · have h3 : (20 : ℚ) ≤ h := by linarith
      simp [h1, h2, hhd.symm, hda, hdc, not_lt.mpr h3, lt_of_not_ge h1]
    · by_cases h3 : h ≥ 20
      · simp [h1, h2, h3, hha.symm, hda.symm, hac, lt_of_not_ge h2, not_lt.mpr h3]
      · simp [h1, h2, h3, hhc.symm, hdc.symm, hac.symm, lt_of_not_ge h3]


/-! ## Lemmas on the codec -/

theorem base64Decode_none (P : Platform) (input : Bytes) (maxLen : Nat)
    (h : P.base64_decode input = none) : base64Decode P input maxLen = (-1, []) := by
  simp [base64Decode, mbedtls_base64_decode, h, MBEDTLS_ERR_BASE64_INVALID_CHARACTER]

theorem base64Decode_too_long (P : Platform) (input data : Bytes) (maxLen : Nat)
    (h : P.base64_decode input = some data) (hlen : maxLen < data.length) :
    base64Decode P input maxLen = (-1, []) := by
  simp [base64Decode, mbedtls_base64_decode, h, hlen, MBEDTLS_ERR_BASE64_BUFFER_TOO_SMALL]

theorem base64Decode_fits (P : Platform) (input data : Bytes) (maxLen : Nat)
    (h : P.base64_decode input = some data) (hlen : data.length ≤ maxLen) :
    base64Decode P input maxLen = ((data.length : Int), data) := by
  simp [base64Decode, mbedtls_base64_decode, h, not_lt.mpr hlen]

/-- The `int` returned by `base64Decode` is -1 or a length between 0 and `maxLen`, and in the
  second case the text decodes to the bytes written. -/
theorem base64Decode_cases (P : Platform) (input : Bytes) (maxLen : Nat) :
    (base64Decode P input maxLen = (-1, []) ∧
      (P.base64_decode input = none ∨
        ∃ data, P.base64_decode input = some data ∧ maxLen < data.length)) ∨
    (∃ data, P.base64_decode input = some data ∧ data.length ≤ maxLen ∧
      base64Decode P input maxLen = ((data.length : Int), data)) := by
  cases h : P.base64_decode input with
  | none => exact Or.inl ⟨base64Decode_none P input maxLen h, Or.inl rfl⟩
  | some data =>
    by_cases hlen : maxLen < data.length
    · exact Or.inl ⟨base64Decode_too_long P input data maxLen h hlen, Or.inr ⟨data, rfl, hlen⟩⟩
    · exact Or.inr ⟨data, rfl, not_lt.mp hlen,
        base64Decode_fits P input data maxLen h (not_lt.mp hlen)⟩

theorem takeWhile_append_stop {α : Type} (p : α → Bool) (l r : List α) (a : α)
    (ha : p a = false) : (l ++ a :: r).takeWhile p = l.takeWhile p := by
  induction l with
  | nil => simp [List.takeWhile, ha]
  | cons x xs ih =>
    simp only [List.cons_append, List.takeWhile]
    cases p x <;> simp [ih]

/-- Terminating a buffer right after `data.length` written bytes and reading it back as a
  C string gives the C string of the written bytes. -/
theorem store_written_cString (buf data : Bytes) (h : data.length < buf.length) :
    ∃ mem, store (written buf data) data.length 0 = some mem ∧ cString mem = cString data := by
  have hlen : (written buf data).length = buf.length := by
    simp [written]; omega
  refine ⟨(written buf data).set data.length 0, ?_, ?_⟩
  · simp [store, hlen, h]
  · have hd : buf.drop data.length ≠ [] := by
      intro hnil
      have := congrArg List.length hnil
      simp at this
      omega
    obtain ⟨x, xs, hx⟩ := List.exists_cons_of_ne_nil hd
    have : (written buf data).set data.length 0 = data ++ (0 : Byte) :: xs := by
      simp [written, hx, List.set_append]
    rw [this]
    exact takeWhile_append_stop _ data xs 0 (by simp)

theorem store_out_of_bounds (buf : Bytes) (i : Nat) (b : Byte) (h : buf.length ≤ i) :
    store buf i b = none := by
  simp [store, not_lt.mpr h]


theorem base64Decode_eq_iff (P : Platform) (input : Bytes) (maxLen : Nat) :
    (base64Decode P input maxLen).1 = maxLen ↔
      ∃ d, P.base64_decode input = some d ∧ d.length = maxLen := by
  rcases base64Decode_cases P input maxLen with ⟨heq, hnone | ⟨d, hd, hlen⟩⟩ | ⟨d, hd, hlen, heq⟩
  · constructor
    · intro h
      rw [heq] at h
      have h2 : (-1 : Int) = (maxLen : Int) := h
      omega
    · rintro ⟨d, hd, _⟩
      rw [hnone] at hd
      cases hd
  · constructor
    · intro h
      rw [heq] at h
      have h2 : (-1 : Int) = (maxLen : Int) := h
      omega
    · rintro ⟨d2, hd2, hl⟩
      rw [hd] at hd2
      cases hd2
      omega
  · constructor
    · intro h
      rw [heq] at h
      have h2 : (d.length : Int) = (maxLen : Int) := h
      exact ⟨d, hd, by omega⟩
    · rintro ⟨d2, hd2, hl⟩
      rw [hd] at hd2
      cases hd2
      rw [heq]
      show (d.length : Int) = (maxLen : Int)
      omega

theorem base64Decode_pos_iff (P : Platform) (input : Bytes) (maxLen : Nat) :
    ¬ (base64Decode P input maxLen).1 < 1 ↔
      ∃ d, P.base64_decode input = some d ∧ 1 ≤ d.length ∧ d.length ≤ maxLen := by
  rcases base64Decode_cases P input maxLen with ⟨heq, hnone | ⟨d, hd, hlen⟩⟩ | ⟨d, hd, hlen, heq⟩
  · constructor
    · intro h
      rw [heq] at h
      exact absurd (show (-1 : Int) < 1 by omega) h
    · rintro ⟨d, hd, _⟩
      rw [hnone] at hd
      cases hd
  · constructor
    · intro h
      rw [heq] at h
      exact absurd (show (-1 : Int) < 1 by omega) h
    · rintro ⟨d2, hd2, _, hl⟩
      rw [hd] at hd2
      cases hd2
      omega
  · constructor
    · intro h
      rw [heq] at h
      have h2 : ¬ (d.length : Int) < 1 := h
      exact ⟨d, hd, by omega, hlen⟩
    · rintro ⟨d2, hd2, hl, _⟩
      rw [hd] at hd2
      cases hd2
      rw [heq]
      show ¬ (d.length : Int) < 1
      omega

/-- The envelope fails the decoding and length checks of `decryptPayload` exactly when some
  field is not valid text, or does not decode to the length its buffer is for. -/
theorem checks_fail_iff (P : Platform) (ivB64 ctB64 atB64 : Bytes) :
    ((base64Decode P ivB64 GCM_IV_SIZE).1 ≠ GCM_IV_SIZE ∨
      (base64Decode P atB64 GCM_TAG_SIZE).1 ≠ GCM_TAG_SIZE ∨
      (base64Decode P ctB64 MAX_PLAINTEXT).1 < 1) ↔
    ¬ ((∃ iv, P.base64_decode ivB64 = some iv ∧ iv.length = GCM_IV_SIZE) ∧
      (∃ tag, P.base64_decode atB64 = some tag ∧ tag.length = GCM_TAG_SIZE) ∧
      (∃ ct, P.base64_decode ctB64 = some ct ∧ 1 ≤ ct.length ∧ ct.length ≤ MAX_PLAINTEXT)) := by
  rw [← base64Decode_eq_iff, ← base64Decode_eq_iff, ← base64Decode_pos_iff]
  tauto

/-- The run of `decryptPayload` on an envelope that fails the decoding and length checks. -/
theorem decryptPayload_of_checks_fail (P : Platform) (ivB64 ctB64 atB64 : Bytes)
    (h : (base64Decode P ivB64 GCM_IV_SIZE).1 ≠ GCM_IV_SIZE ∨
      (base64Decode P atB64 GCM_TAG_SIZE).1 ≠ GCM_TAG_SIZE ∨
      (base64Decode P ctB64 MAX_PLAINTEXT).1 < 1) :
    decryptPayload P ivB64 ctB64 atB64 =
      some ⟨[], List.replicate 3 Call.mbedtls_base64_decode ++
        [.Serial_println decodeFailedLine]⟩ := by
  unfold decryptPayload
  simp only [if_pos h]

/-- The run of `decryptPayload` on an envelope that passes the decoding and length checks. -/
theorem decryptPayload_of_checks_pass (P : Platform) (ivB64 ctB64 atB64 iv tag ct : Bytes)
    (hiv : P.base64_decode ivB64 = some iv) (hivl : iv.length = GCM_IV_SIZE)
    (htag : P.base64_decode atB64 = some tag) (htagl : tag.length = GCM_TAG_SIZE)
    (hct : P.base64_decode ctB64 = some ct) (hct1 : 1 ≤ ct.length)
    (hct2 : ct.length ≤ MAX_PLAINTEXT) :
    decryptPayload P ivB64 ctB64 atB64 =
      if P.gcm_setkey HARMONY_AES_KEY (AES_KEY_SIZE * 8) ≠ 0 then
        some ⟨[], List.replicate 3 Call.mbedtls_base64_decode ++
          [.mbedtls_gcm_init, .mbedtls_gcm_setkey, .mbedtls_gcm_free]⟩
      else if (P.gcm_auth_decrypt HARMONY_AES_KEY iv tag ct).1 ≠ 0 then
        some ⟨[], List.replicate 3 Call.mbedtls_base64_decode ++
          [.mbedtls_gcm_init, .mbedtls_gcm_setkey, .mbedtls_gcm_auth_decrypt,
            .mbedtls_gcm_free, .Serial_println tamperLine]⟩
      else
        (store (written ((List.range MAX_PLAINTEXT).map P.stack)
            (P.gcm_auth_decrypt HARMONY_AES_KEY iv tag ct).2) ct.length 0).map
          (fun mem => ⟨cString mem, List.replicate 3 Call.mbedtls_base64_decode ++
            [.mbedtls_gcm_init, .mbedtls_gcm_setkey, .mbedtls_gcm_auth_decrypt,
              .mbedtls_gcm_free]⟩) := by
  have e1 := base64Decode_fits P ivB64 iv GCM_IV_SIZE hiv (le_of_eq hivl)
  have e2 := base64Decode_fits P atB64 tag GCM_TAG_SIZE htag (le_of_eq htagl)
  have e3 := base64Decode_fits P ctB64 ct MAX_PLAINTEXT hct hct2
  have hno : ¬ (((iv.length : Int) ≠ (GCM_IV_SIZE : Nat)) ∨ ((tag.length : Int) ≠ (GCM_TAG_SIZE : Nat)) ∨
      (ct.length : Int) < 1) := by
    rw [hivl, htagl]
    simp only [ne_eq, not_true_eq_false, false_or, not_lt]
    omega
  unfold decryptPayload
  simp only [e1, e2, e3, if_neg hno, Int.toNat_ofNat]
  split_ifs <;> first | rfl | (cases store _ _ _ <;> rfl)

theorem take_strlen (s : Bytes) : s.take (strlen s) = cString s := by
  unfold strlen cString
  induction s with
  | nil => rfl
  | cons x xs ih =>
    by_cases hx : x = 0
    · simp [List.takeWhile, hx]
    · have hx2 : (decide (x ≠ 0)) = true := by simpa using hx
      simp only [List.takeWhile, hx2, List.length_cons, List.take_succ_cons, ih]

/-! ## Envelope codec: settled claims -/

/-- C6: fail closed on tamper. For every envelope whose fields decode to valid lengths, when
  the authenticated decryption returns a non-zero code, `decryptPayload` returns the empty
  string, whatever bytes the cipher left in the plaintext buffer. -/
theorem decryptPayload_fails_closed_on_tag_mismatch (P : Platform)
    (ivB64 ctB64 atB64 iv tag ct buffer : Bytes) (ret : Int)
    (hiv : P.base64_decode ivB64 = some iv) (hivl : iv.length = GCM_IV_SIZE)
    (htag : P.base64_decode atB64 = some tag) (htagl : tag.length = GCM_TAG_SIZE)
    (hct : P.base64_decode ctB64 = some ct) (hct1 : 1 ≤ ct.length)
    (hct2 : ct.length ≤ MAX_PLAINTEXT)
    (hauth : P.gcm_auth_decrypt HARMONY_AES_KEY iv tag ct = (ret, buffer)) (hret : ret ≠ 0) :
    (decryptPayload P ivB64 ctB64 atB64).map (fun run => run.result) = some [] := by
  rw [decryptPayload_of_checks_pass P ivB64 ctB64 atB64 iv tag ct hiv hivl htag htagl hct hct1
    hct2, hauth]
  by_cases hkey : P.gcm_setkey HARMONY_AES_KEY (AES_KEY_SIZE * 8) ≠ 0
  · simp only [if_pos hkey, Option.map_some']
  · simp only [if_neg hkey, if_pos hret, Option.map_some']

theorem decryptPayload_fails_closed_on_tag_mismatch_witness :
    Demo.base64_decode Demo.tampered.iv = some (generateRandomIV Demo 12) ∧
    Demo.gcm_auth_decrypt HARMONY_AES_KEY (generateRandomIV Demo 12) (List.replicate 15 121 ++ [122])
      [73, 106] = (MBEDTLS_ERR_GCM_AUTH_FAILED, [0, 0]) ∧
    (decryptPayload Demo Demo.tampered.iv Demo.tampered.ct Demo.tampered.at_).map
      (fun run => run.result) = some [] :=
  ⟨by decide, by decide,
    decryptPayload_fails_closed_on_tag_mismatch Demo Demo.tampered.iv Demo.tampered.ct
      Demo.tampered.at_ (generateRandomIV Demo 12) (List.replicate 15 121 ++ [122]) [73, 106] [0, 0]
      MBEDTLS_ERR_GCM_AUTH_FAILED (by decide) (by decide) (by decide) (by decide) (by decide)
      (by decide) (by decide) (by decide) (by decide)⟩

/-- C7: an envelope with a malformed field (text that is not valid for the encoding, an IV
  that does not decode to exactly 12 bytes, a tag that does not decode to exactly 16 bytes, a
  ciphertext that decodes to fewer than 1 or more than `MAX_PLAINTEXT` bytes) makes
  `decryptPayload` return the empty string without installing the key and without calling the
  authenticated decryption. -/
theorem decryptPayload_rejects_malformed_before_cipher (P : Platform)
    (ivB64 ctB64 atB64 : Bytes)
    (h : P.base64_decode ivB64 = none ∨ P.base64_decode ctB64 = none ∨
      P.base64_decode atB64 = none ∨
      (∃ iv, P.base64_decode ivB64 = some iv ∧ iv.length ≠ GCM_IV_SIZE) ∨
      (∃ tag, P.base64_decode atB64 = some tag ∧ tag.length ≠ GCM_TAG_SIZE) ∨
      (∃ ct, P.base64_decode ctB64 = some ct ∧ (ct.length < 1 ∨ MAX_PLAINTEXT < ct.length))) :
    ∃ run, decryptPayload P ivB64 ctB64 atB64 = some run ∧ run.result = [] ∧
      Call.mbedtls_gcm_setkey ∉ run.calls ∧ Call.mbedtls_gcm_auth_decrypt ∉ run.calls ∧
      Call.mbedtls_gcm_init ∉ run.calls := by
  have hfail : (base64Decode P ivB64 GCM_IV_SIZE).1 ≠ GCM_IV_SIZE ∨
      (base64Decode P atB64 GCM_TAG_SIZE).1 ≠ GCM_TAG_SIZE ∨
      (base64Decode P ctB64 MAX_PLAINTEXT).1 < 1 := by
    rw [checks_fail_iff]
    rintro ⟨⟨iv, h1, h2⟩, ⟨tag, h3, h4⟩, ⟨ct, h5, h6, h7⟩⟩
    rcases h with h | h | h | ⟨x, hx, hl⟩ | ⟨x, hx, hl⟩ | ⟨x, hx, hl⟩
    · rw [h] at h1; cases h1
    · rw [h] at h5; cases h5
    · rw [h] at h3; cases h3
    · rw [hx] at h1; cases h1; exact hl h2
    · rw [hx] at h3; cases h3; exact hl h4
    · rw [hx] at h5; cases h5; omega
  refine ⟨_, decryptPayload_of_checks_fail P ivB64 ctB64 atB64 hfail, rfl, ?_, ?_, ?_⟩ <;>
    simp [List.replicate]

theorem decryptPayload_rejects_malformed_before_cipher_witness :
    (∃ iv, Demo.base64_decode Demo.truncated.iv = some iv ∧ iv.length ≠ GCM_IV_SIZE) ∧
    ∃ run, decryptPayload Demo Demo.truncated.iv Demo.truncated.ct Demo.truncated.at_ = some run ∧
      run.result = [] ∧ Call.mbedtls_gcm_setkey ∉ run.calls ∧
      Call.mbedtls_gcm_auth_decrypt ∉ run.calls ∧ Call.mbedtls_gcm_init ∉ run.calls :=
  ⟨⟨[], by decide, by decide⟩,
    decryptPayload_rejects_malformed_before_cipher Demo Demo.truncated.iv Demo.truncated.ct
      Demo.truncated.at_ (Or.inr (Or.inr (Or.inr (Or.inl ⟨[], by decide, by decide⟩))))⟩

/-- C8: `encryptPayload` returns false on a plaintext of length 0 and on every plaintext longer
  than `MAX_PLAINTEXT` = 512 bytes, leaving `out` as it was and before any random draw or other
  call; a plaintext of length 1 to 512 is never rejected by the length check: the run goes on to
  draw the 12 IV bytes, and returns true when allocation, key installation and encryption
  succeed. -/
theorem encryptPayload_length_check (P : Platform) (plaintext : Bytes)
    (out : EncryptedPayload) :
    ((strlen plaintext = 0 ∨ MAX_PLAINTEXT < strlen plaintext) →
      encryptPayload P plaintext out = ⟨false, out, []⟩) ∧
    ((1 ≤ strlen plaintext ∧ strlen plaintext ≤ MAX_PLAINTEXT) →
      (encryptPayload P plaintext out).calls.take GCM_IV_SIZE =
        List.replicate GCM_IV_SIZE Call.esp_random ∧
      (P.malloc 0 = true → P.gcm_setkey HARMONY_AES_KEY (AES_KEY_SIZE * 8) = 0 →
        (P.gcm_crypt_and_tag HARMONY_AES_KEY (generateRandomIV P GCM_IV_SIZE)
          (cString plaintext)).1 = 0 →
        (encryptPayload P plaintext out).ret = true)) := by
  constructor
  · intro h
    have h2 : strlen plaintext = 0 ∨ strlen plaintext > MAX_PLAINTEXT := h
    unfold encryptPayload
    simp only [if_pos h2]
  · rintro ⟨h1, h2⟩
    have hgate : ¬ (strlen plaintext = 0 ∨ strlen plaintext > MAX_PLAINTEXT) := by
      rintro (h | h) <;> omega
    constructor
    · unfold encryptPayload
      simp only [if_neg hgate]
      split_ifs <;> simp [GCM_IV_SIZE, List.take_append_of_le_length, List.append_assoc]
    · intro hm hk hc
      simp only [encryptPayload, take_strlen]
      simp [hgate, hm, hk, hc]

set_option maxRecDepth 100000 in
theorem encryptPayload_length_check_witness :
    (strlen [] = 0 ∧ encryptPayload Demo [] Demo.sealed = ⟨false, Demo.sealed, []⟩) ∧
    (MAX_PLAINTEXT < strlen (List.replicate 513 65) ∧
      encryptPayload Demo (List.replicate 513 65) Demo.sealed = ⟨false, Demo.sealed, []⟩) ∧
    ((1 ≤ strlen (List.replicate 512 65) ∧ strlen (List.replicate 512 65) ≤ MAX_PLAINTEXT) ∧
      (encryptPayload Demo (List.replicate 512 65) Demo.sealed).ret = true) :=
  ⟨⟨by decide, (encryptPayload_length_check Demo [] Demo.sealed).1 (Or.inl (by decide))⟩,
    ⟨by decide,
      (encryptPayload_length_check Demo (List.replicate 513 65) Demo.sealed).1
        (Or.inr (by decide))⟩,
    ⟨by decide,
      ((encryptPayload_length_check Demo (List.replicate 512 65) Demo.sealed).2
        (by decide)).2 (by decide) (by decide) (by decide)⟩⟩

/-! ## Rejections of `decryptPayload` -/

theorem malformed_iff_checks_fail (P : Platform) (ivB64 ctB64 atB64 : Bytes) :
    Malformed P ivB64 ctB64 atB64 ↔
      ((base64Decode P ivB64 GCM_IV_SIZE).1 ≠ GCM_IV_SIZE ∨
        (base64Decode P atB64 GCM_TAG_SIZE).1 ≠ GCM_TAG_SIZE ∨
        (base64Decode P ctB64 MAX_PLAINTEXT).1 < 1) := by
  rw [checks_fail_iff, Malformed, not_iff_not]
  constructor
  · rintro ⟨iv, tag, ct, h1, h2, h3, h4, h5, h6, h7⟩
    exact ⟨⟨iv, h1, h2⟩, ⟨tag, h3, h4⟩, ⟨ct, h5, h6, h7⟩⟩
  · rintro ⟨⟨iv, h1, h2⟩, ⟨tag, h3, h4⟩, ⟨ct, h5, h6, h7⟩⟩
    exact ⟨iv, tag, ct, h1, h2, h3, h4, h5, h6, h7⟩

theorem decryptPayload_of_malformed (P : Platform) (ivB64 ctB64 atB64 : Bytes)
    (h : Malformed P ivB64 ctB64 atB64) :
    decryptPayload P ivB64 ctB64 atB64 =
      some ⟨[], List.replicate 3 Call.mbedtls_base64_decode ++
        [.Serial_println decodeFailedLine]⟩ :=
  decryptPayload_of_checks_fail P ivB64 ctB64 atB64
    ((malformed_iff_checks_fail P ivB64 ctB64 atB64).1 h)

theorem decryptPayload_of_tagMismatch (P : Platform) (ivB64 ctB64 atB64 : Bytes)
    (h : TagMismatch P ivB64 ctB64 atB64) :
    decryptPayload P ivB64 ctB64 atB64 =
      some ⟨[], List.replicate 3 Call.mbedtls_base64_decode ++
        [.mbedtls_gcm_init, .mbedtls_gcm_setkey, .mbedtls_gcm_auth_decrypt,
          .mbedtls_gcm_free, .Serial_println tamperLine]⟩ := by
  obtain ⟨iv, tag, ct, ⟨h1, h2, h3, h4, h5, h6, h7⟩, hkey, hret⟩ := h
  rw [decryptPayload_of_checks_pass P ivB64 ctB64 atB64 iv tag ct h1 h2 h3 h4 h5 h6 h7]
  simp only [hkey, ne_eq, not_true_eq_false, if_false, hret, not_false_eq_true, if_true]

theorem Demo.tampered_tagMismatch :
    TagMismatch Demo Demo.tampered.iv Demo.tampered.ct Demo.tampered.at_ :=
  ⟨generateRandomIV Demo 12, List.replicate 15 121 ++ [122], [73, 106],
    ⟨by decide, by decide, by decide, by decide, by decide, by decide, by decide⟩,
    by decide, by decide⟩

theorem Demo.truncated_malformed :
    Malformed Demo Demo.truncated.iv Demo.truncated.ct Demo.truncated.at_ := by
  rintro ⟨iv, tag, ct, h1, h2, _⟩
  have h0 : Demo.base64_decode Demo.truncated.iv = some [] := by decide
  rw [h0] at h1
  cases h1
  exact absurd h2 (by decide)

/-- C9, as stated, fails: on the platform `Demo` the envelope `Demo.tampered` is rejected for
  a tag mismatch and the envelope `Demo.truncated` is rejected as malformed, and
  `decryptPayload` returns the same value, the empty string, for both. -/
theorem tamper_and_malformed_return_the_same_value :
    TagMismatch Demo Demo.tampered.iv Demo.tampered.ct Demo.tampered.at_ ∧
    Malformed Demo Demo.truncated.iv Demo.truncated.ct Demo.truncated.at_ ∧
    (decryptPayload Demo Demo.tampered.iv Demo.tampered.ct Demo.tampered.at_).map
        (fun run => run.result) =
      (decryptPayload Demo Demo.truncated.iv Demo.truncated.ct Demo.truncated.at_).map
        (fun run => run.result) :=
  ⟨Demo.tampered_tagMismatch, Demo.truncated_malformed, by decide⟩

/-- C9, amended: a tag-mismatch rejection and a malformed-input rejection return the same
  value to the caller, the empty string, so neither releases plaintext; the two runs differ
  only in the line printed on the serial port. -/
theorem tamper_and_malformed_differ_only_in_serial_line (P : Platform)
    (iv1 ct1 at1 iv2 ct2 at2 : Bytes)
    (htamper : TagMismatch P iv1 ct1 at1) (hmalformed : Malformed P iv2 ct2 at2) :
    ∃ run1 run2, decryptPayload P iv1 ct1 at1 = some run1 ∧
      decryptPayload P iv2 ct2 at2 = some run2 ∧
      run1.result = [] ∧ run2.result = [] ∧
      Call.Serial_println tamperLine ∈ run1.calls ∧
      Call.Serial_println tamperLine ∉ run2.calls ∧
      Call.Serial_println decodeFailedLine ∈ run2.calls ∧
      Call.Serial_println decodeFailedLine ∉ run1.calls := by
  refine ⟨_, _, decryptPayload_of_tagMismatch P iv1 ct1 at1 htamper,
    decryptPayload_of_malformed P iv2 ct2 at2 hmalformed, rfl, rfl, ?_, ?_, ?_, ?_⟩
  · simp
  · simp [List.replicate, tamperLine, decodeFailedLine]
  · simp
  · simp [List.replicate, tamperLine, decodeFailedLine]

theorem tamper_and_malformed_differ_only_in_serial_line_witness :
    ∃ run1 run2,
      decryptPayload Demo Demo.tampered.iv Demo.tampered.ct Demo.tampered.at_ = some run1 ∧
      decryptPayload Demo Demo.truncated.iv Demo.truncated.ct Demo.truncated.at_ = some run2 ∧
      run1.result = [] ∧ run2.result = [] ∧
      Call.Serial_println tamperLine ∈ run1.calls ∧
      Call.Serial_println tamperLine ∉ run2.calls ∧
      Call.Serial_println decodeFailedLine ∈ run2.calls ∧
      Call.Serial_println decodeFailedLine ∉ run1.calls :=
  tamper_and_malformed_differ_only_in_serial_line Demo Demo.tampered.iv Demo.tampered.ct
    Demo.tampered.at_ Demo.truncated.iv Demo.truncated.ct Demo.truncated.at_
    Demo.tampered_tagMismatch Demo.truncated_malformed

/-! ## `encryptPayload` followed by `decryptPayload` -/

theorem cString_of_no_nul (s : Bytes) (h : ∀ c ∈ s, c ≠ 0) : cString s = s := by
  unfold cString
  rw [List.takeWhile_eq_self_iff]
  intro c hc
  simpa using h c hc

theorem cString_idem (s : Bytes) : cString (cString s) = cString s := by
  apply cString_of_no_nul
  intro c hc
  have := List.mem_takeWhile_imp hc
  simpa using this

theorem cString_terminated (s : Bytes) : cString (s ++ [0]) = cString s := by
  unfold cString
  exact takeWhile_append_stop _ s [] 0 (by simp)

theorem base64Encode_of_alloc (P : Platform) (hb : Base64Inverts P) (k : Nat) (data : Bytes)
    (hk : P.malloc k = true) : (base64Encode P k data).1 = P.base64_encode data := by
  simp only [base64Encode, hk, Bool.not_true, Bool.false_eq_true, if_false]
  rw [cString_terminated]
  exact cString_of_no_nul _ (hb data).2

/-- What a successful `encryptPayload` went through, and the envelope it wrote. -/
theorem encryptPayload_of_success (P : Platform) (plaintext : Bytes) (out : EncryptedPayload)
    (hret : (encryptPayload P plaintext out).ret = true) :
    1 ≤ strlen plaintext ∧ strlen plaintext ≤ MAX_PLAINTEXT ∧
    P.gcm_setkey HARMONY_AES_KEY (AES_KEY_SIZE * 8) = 0 ∧
    (P.gcm_crypt_and_tag HARMONY_AES_KEY (generateRandomIV P GCM_IV_SIZE)
      (cString plaintext)).1 = 0 ∧
    (encryptPayload P plaintext out).out =
      { iv := (base64Encode P 1 (generateRandomIV P GCM_IV_SIZE)).1,
        ct := (base64Encode P 2 (P.gcm_crypt_and_tag HARMONY_AES_KEY
          (generateRandomIV P GCM_IV_SIZE) (cString plaintext)).2.1).1,
        at_ := (base64Encode P 3 (P.gcm_crypt_and_tag HARMONY_AES_KEY
          (generateRandomIV P GCM_IV_SIZE) (cString plaintext)).2.2).1 } := by
  by_cases h1 : strlen plaintext = 0 ∨ strlen plaintext > MAX_PLAINTEXT
  · simp [encryptPayload, h1] at hret
  by_cases h2 : P.malloc 0 = true
  swap
  · simp [encryptPayload, h1, h2] at hret
  by_cases h3 : P.gcm_setkey HARMONY_AES_KEY (AES_KEY_SIZE * 8) = 0
  swap
  · simp [encryptPayload, h1, h2, h3] at hret
  by_cases h4 : (P.gcm_crypt_and_tag HARMONY_AES_KEY (generateRandomIV P GCM_IV_SIZE)
      (cString plaintext)).1 = 0
  swap
  · simp [encryptPayload, take_strlen, h1, h2, h3, h4] at hret
  refine ⟨by omega, by omega, h3, h4, ?_⟩
  simp [encryptPayload, take_strlen, h1, h2, h3, h4]

/-- Under the round-trip assumptions, what `decryptPayload` does with the envelope of a
  successful `encryptPayload`: it decrypts the C string of the plaintext into its buffer and
  stores the terminator at index `strlen plaintext`. -/
theorem decryptPayload_of_encryptPayload (P : Platform) (hc : CipherInverts P)
    (hb : Base64Inverts P) (plaintext : Bytes) (out : EncryptedPayload)
    (hm : P.malloc 1 = true ∧ P.malloc 2 = true ∧ P.malloc 3 = true)
    (hret : (encryptPayload P plaintext out).ret = true) :
    (decryptPayload P (encryptPayload P plaintext out).out.iv
        (encryptPayload P plaintext out).out.ct
        (encryptPayload P plaintext out).out.at_).map (fun run => run.result) =
      (store (written ((List.range MAX_PLAINTEXT).map P.stack) (cString plaintext))
        (strlen plaintext) 0).map cString := by
  obtain ⟨h1, h2, hkey, hcrypt, hout⟩ := encryptPayload_of_success P plaintext out hret
  obtain ⟨hl1, hl2, hdec⟩ := hc _ _ _ hcrypt
  rw [hout]
  simp only [base64Encode_of_alloc P hb _ _ hm.1, base64Encode_of_alloc P hb _ _ hm.2.1,
    base64Encode_of_alloc P hb _ _ hm.2.2]
  have hlen : (cString plaintext).length = strlen plaintext := rfl
  rw [decryptPayload_of_checks_pass P _ _ _ _ _ _ (hb _).1 (by simp [generateRandomIV])
    (hb _).1 hl2 (hb _).1 (by omega) (by omega)]
  simp only [hkey, ne_eq, not_true_eq_false, if_false, hdec, hl1, hlen, Option.map_map]
  rfl

theorem stack_buffer_length (P : Platform) :
    ((List.range MAX_PLAINTEXT).map P.stack).length = MAX_PLAINTEXT := by
  simp

/-- Under the round-trip assumptions, a plaintext of fewer than `MAX_PLAINTEXT` characters
  comes back from `decryptPayload` exactly. -/
theorem roundtrip_below_MAX_PLAINTEXT (P : Platform) (hc : CipherInverts P)
    (hb : Base64Inverts P) (plaintext : Bytes) (out : EncryptedPayload)
    (hm : P.malloc 1 = true ∧ P.malloc 2 = true ∧ P.malloc 3 = true)
    (hret : (encryptPayload P plaintext out).ret = true)
    (hlen : strlen plaintext < MAX_PLAINTEXT) :
    (decryptPayload P (encryptPayload P plaintext out).out.iv
        (encryptPayload P plaintext out).out.ct
        (encryptPayload P plaintext out).out.at_).map (fun run => run.result) =
      some (cString plaintext) := by
  rw [decryptPayload_of_encryptPayload P hc hb plaintext out hm hret]
  obtain ⟨mem, hmem, hstr⟩ := store_written_cString ((List.range MAX_PLAINTEXT).map P.stack)
    (cString plaintext) (by rw [stack_buffer_length]; exact hlen)
  have hmem2 : store (written ((List.range MAX_PLAINTEXT).map P.stack) (cString plaintext))
      (strlen plaintext) 0 = some mem := hmem
  rw [hmem2, Option.map_some', hstr, cString_idem]

/-- Under the round-trip assumptions, the envelope of a plaintext of exactly `MAX_PLAINTEXT`
  characters makes `decryptPayload` store its terminator outside the `plaintext` array. -/
theorem roundtrip_at_MAX_PLAINTEXT (P : Platform) (hc : CipherInverts P)
    (hb : Base64Inverts P) (plaintext : Bytes) (out : EncryptedPayload)
    (hm : P.malloc 1 = true ∧ P.malloc 2 = true ∧ P.malloc 3 = true)
    (hret : (encryptPayload P plaintext out).ret = true)
    (hlen : strlen plaintext = MAX_PLAINTEXT) :
    decryptPayload P (encryptPayload P plaintext out).out.iv
        (encryptPayload P plaintext out).out.ct
        (encryptPayload P plaintext out).out.at_ = none := by
  have h := decryptPayload_of_encryptPayload P hc hb plaintext out hm hret
  have hlen2 : (written ((List.range MAX_PLAINTEXT).map P.stack) (cString plaintext)).length
      ≤ strlen plaintext := by
    have : (cString plaintext).length = MAX_PLAINTEXT := hlen
    simp [written, this, hlen]
  rw [store_out_of_bounds _ _ _ hlen2, Option.map_none'] at h
  simpa using h

set_option maxRecDepth 100000 in
theorem Demo.decode_encode (data : Bytes) : Demo.decode (Demo.encode data) = some data := by
  induction data with
  | nil => rfl
  | cons b rest ih =>
    have hb : ∀ b : Byte, (65 ≤ (65 + b / 16 : Byte).val ∧ (65 + b / 16 : Byte).val < 81 ∧
        65 ≤ (65 + b % 16 : Byte).val ∧ (65 + b % 16 : Byte).val < 81) ∧
        ((65 + b / 16 : Byte) - 65) * 16 + ((65 + b % 16 : Byte) - 65) = b := by decide
    have hstep : Demo.encode (b :: rest) =
        (65 + b / 16 : Byte) :: (65 + b % 16 : Byte) :: Demo.encode rest := by
      simp [Demo.encode]
    rw [hstep, Demo.decode, if_pos (hb b).1, ih, Option.map_some', (hb b).2]

set_option maxRecDepth 100000 in
theorem Demo.encode_no_nul (data : Bytes) : ∀ c ∈ Demo.encode data, c ≠ 0 := by
  have hb : ∀ b : Byte, (65 + b / 16 : Byte) ≠ 0 ∧ (65 + b % 16 : Byte) ≠ 0 := by decide
  intro c hc
  simp only [Demo.encode, List.mem_flatMap, List.mem_cons, List.mem_singleton,
    List.not_mem_nil, or_false] at hc
  obtain ⟨b, _, rfl | rfl⟩ := hc
  · exact (hb b).1
  · exact (hb b).2

theorem Demo.base64Inverts : Base64Inverts Demo :=
  fun data => ⟨Demo.decode_encode data, Demo.encode_no_nul data⟩

set_option maxRecDepth 100000 in
theorem Demo.cipherInverts : CipherInverts Demo := by
  intro key iv input _
  refine ⟨by simp [Demo], by simp [Demo, Demo.tag], ?_⟩
  have hmap : (input.map (fun b => b + 1)).map (fun b => b - 1) = input := by
    rw [List.map_map]
    have : ((fun b : Byte => b - 1) ∘ fun b => b + 1) = id := by
      funext b
      revert b
      decide
    rw [this, List.map_id]
  simp only [Demo, if_true, hmap]

set_option maxRecDepth 100000 in
/-- C5: the round trip breaks at the upper end of the range. On `Demo`, a platform whose
  cipher and transport encoding satisfy the round-trip assumptions, `encryptPayload` accepts
  the plaintext of `MAX_PLAINTEXT` = 512 characters `A` and returns true, and `decryptPayload`
  on the envelope produced does not return the plaintext: it stores the terminator at index
  512 of the 512-byte array `plaintext`. -/
theorem roundtrip_fails_at_512_bytes :
    CipherInverts Demo ∧ Base64Inverts Demo ∧
    strlen Demo.longest = MAX_PLAINTEXT ∧
    (encryptPayload Demo Demo.longest ⟨[], [], []⟩).ret = true ∧
    decryptPayload Demo (encryptPayload Demo Demo.longest ⟨[], [], []⟩).out.iv
      (encryptPayload Demo Demo.longest ⟨[], [], []⟩).out.ct
      (encryptPayload Demo Demo.longest ⟨[], [], []⟩).out.at_ = none :=
  ⟨Demo.cipherInverts, Demo.base64Inverts, by decide, by decide,
    roundtrip_at_MAX_PLAINTEXT Demo Demo.cipherInverts Demo.base64Inverts Demo.longest
      ⟨[], [], []⟩ ⟨rfl, rfl, rfl⟩ (by decide) (by decide)⟩

/-! ## The result of a successful `decryptPayload` -/

theorem cString_of_head_nul (s : Bytes) (h : s.head? = some 0) : cString s = [] := by
  cases s with
  | nil => simp at h
  | cons x xs =>
    simp only [List.head?_cons, Option.some.injEq] at h
    simp [cString, List.takeWhile, h]

/-- The result of `decryptPayload` on an envelope on which every step succeeds and whose
  ciphertext is shorter than the `plaintext` array. -/
theorem decryptPayload_of_authenticates (P : Platform) (ivB64 ctB64 atB64 ct pt : Bytes)
    (h : Authenticates P ivB64 ctB64 atB64 ct pt) (hlt : ct.length < MAX_PLAINTEXT) :
    (decryptPayload P ivB64 ctB64 atB64).map (fun run => run.result) = some (cString pt) := by
  obtain ⟨iv, tag, ⟨h1, h2, h3, h4, h5, h6, h7⟩, hkey, hdec, hlen⟩ := h
  rw [decryptPayload_of_checks_pass P ivB64 ctB64 atB64 iv tag ct h1 h2 h3 h4 h5 h6 h7]
  obtain ⟨mem, hmem, hstr⟩ := store_written_cString ((List.range MAX_PLAINTEXT).map P.stack)
    pt (by rw [stack_buffer_length, hlen]; exact hlt)
  rw [hlen] at hmem
  simp only [hkey, ne_eq, not_true_eq_false, if_false, hdec, hmem, Option.map_some', hstr]

theorem Demo.sealedNul_authenticates :
    Authenticates Demo Demo.sealedNul.iv Demo.sealedNul.ct Demo.sealedNul.at_ [1] [0] :=
  ⟨List.replicate 12 0, List.replicate 16 1,
    ⟨by decide, by decide, by decide, by decide, by decide, by decide, by decide⟩,
    by decide, by decide, by decide⟩

theorem Demo.sealed_authenticates :
    Authenticates Demo Demo.sealed.iv Demo.sealed.ct Demo.sealed.at_ [73, 106] [72, 105] :=
  ⟨generateRandomIV Demo 12, List.replicate 16 121,
    ⟨by decide, by decide, by decide, by decide, by decide, by decide, by decide⟩,
    by decide, by decide, by decide⟩

set_option maxRecDepth 100000 in
/-- C10, as stated, fails: on the platform `Demo` every step of `decryptPayload` succeeds on
  the envelope `Demo.sealedNul`, whose authenticated plaintext is the single byte 0, and the
  result is the empty string all the same. -/
theorem empty_result_without_failure :
    Authenticates Demo Demo.sealedNul.iv Demo.sealedNul.ct Demo.sealedNul.at_ [1] [0] ∧
    (decryptPayload Demo Demo.sealedNul.iv Demo.sealedNul.ct Demo.sealedNul.at_).map
      (fun run => run.result) = some [] :=
  ⟨Demo.sealedNul_authenticates, by decide⟩

/-- C10, amended: `decryptPayload` returns the empty string whenever decoding or length
  validation, key installation or tag verification fails; when every step succeeds on a
  ciphertext of fewer than `MAX_PLAINTEXT` bytes the result is the authenticated plaintext up
  to its first zero byte: the whole, non-empty plaintext when no byte of it is 0, and the empty
  string when its first byte is 0. -/
theorem decryptPayload_result_is_plaintext_as_C_string (P : Platform)
    (ivB64 ctB64 atB64 : Bytes) :
    ((Malformed P ivB64 ctB64 atB64 ∨ P.gcm_setkey HARMONY_AES_KEY (AES_KEY_SIZE * 8) ≠ 0 ∨
        TagMismatch P ivB64 ctB64 atB64) →
      (decryptPayload P ivB64 ctB64 atB64).map (fun run => run.result) = some []) ∧
    (∀ ct pt, Authenticates P ivB64 ctB64 atB64 ct pt → ct.length < MAX_PLAINTEXT →
      (decryptPayload P ivB64 ctB64 atB64).map (fun run => run.result) = some (cString pt) ∧
      ((∀ b ∈ pt, b ≠ 0) →
        (decryptPayload P ivB64 ctB64 atB64).map (fun run => run.result) = some pt ∧
        pt ≠ []) ∧
      (pt.head? = some 0 →
        (decryptPayload P ivB64 ctB64 atB64).map (fun run => run.result) = some [])) := by
  constructor
  · rintro (h | h | h)
    · rw [decryptPayload_of_malformed P ivB64 ctB64 atB64 h]
      rfl
    · by_cases hm : Malformed P ivB64 ctB64 atB64
      · rw [decryptPayload_of_malformed P ivB64 ctB64 atB64 hm]
        rfl
      · obtain ⟨iv, tag, ct, h1, h2, h3, h4, h5, h6, h7⟩ := not_not.mp hm
        rw [decryptPayload_of_checks_pass P ivB64 ctB64 atB64 iv tag ct h1 h2 h3 h4 h5 h6 h7,
          if_pos h]
        rfl
    · rw [decryptPayload_of_tagMismatch P ivB64 ctB64 atB64 h]
      rfl
  · intro ct pt hauth hlt
    have hres := decryptPayload_of_authenticates P ivB64 ctB64 atB64 ct pt hauth hlt
    refine ⟨hres, ?_, ?_⟩
    · intro hnz
      rw [hres, cString_of_no_nul pt hnz]
      refine ⟨rfl, ?_⟩
      obtain ⟨iv, tag, ⟨_, _, _, _, _, h6, _⟩, _, _, hlen⟩ := hauth
      intro hnil
      rw [hnil] at hlen
      simp at hlen
      omega
    · intro hhead
      rw [hres, cString_of_head_nul pt hhead]

set_option maxRecDepth 100000 in
theorem decryptPayload_result_is_plaintext_as_C_string_witness :
    (TagMismatch Demo Demo.tampered.iv Demo.tampered.ct Demo.tampered.at_ ∧
      (decryptPayload Demo Demo.tampered.iv Demo.tampered.ct Demo.tampered.at_).map
        (fun run => run.result) = some []) ∧
    (Authenticates Demo Demo.sealed.iv Demo.sealed.ct Demo.sealed.at_ [73, 106] [72, 105] ∧
      (decryptPayload Demo Demo.sealed.iv Demo.sealed.ct Demo.sealed.at_).map
        (fun run => run.result) = some [72, 105]) ∧
    (Authenticates Demo Demo.sealedNul.iv Demo.sealedNul.ct Demo.sealedNul.at_ [1] [0] ∧
      (decryptPayload Demo Demo.sealedNul.iv Demo.sealedNul.ct Demo.sealedNul.at_).map
        (fun run => run.result) = some []) :=
  ⟨⟨Demo.tampered_tagMismatch,
      (decryptPayload_result_is_plaintext_as_C_string Demo Demo.tampered.iv Demo.tampered.ct
        Demo.tampered.at_).1 (Or.inr (Or.inr Demo.tampered_tagMismatch))⟩,
    ⟨Demo.sealed_authenticates,
      (((decryptPayload_result_is_plaintext_as_C_string Demo Demo.sealed.iv Demo.sealed.ct
        Demo.sealed.at_).2 [73, 106] [72, 105] Demo.sealed_authenticates (by decide)).2.1
          (by decide)).1⟩,
    ⟨Demo.sealedNul_authenticates,
      ((decryptPayload_result_is_plaintext_as_C_string Demo Demo.sealedNul.iv Demo.sealedNul.ct
        Demo.sealedNul.at_).2 [1] [0] Demo.sealedNul_authenticates (by decide)).2.2 rfl⟩⟩

/-! ## Scoring engine: lemmas on the normalised risks -/

theorem constrain_bounds (x lo hi : ℚ) (h : lo ≤ hi) :
    lo ≤ constrain x lo hi ∧ constrain x lo hi ≤ hi := by
  unfold constrain
  split_ifs with h1 h2
  · exact ⟨le_refl _, h⟩
  · exact ⟨h, le_refl _⟩
  · exact ⟨not_lt.mp h1, not_lt.mp h2⟩

theorem constrain_mono (x y lo hi : ℚ) (h : lo ≤ hi) (hxy : x ≤ y) :
    constrain x lo hi ≤ constrain y lo hi := by
  unfold constrain
  split_ifs <;> linarith

theorem constrain_of_le_low (x lo hi : ℚ) (h : lo ≤ hi) (hx : x ≤ lo) :
    constrain x lo hi = lo := by
  unfold constrain
  split_ifs <;> linarith

theorem Arduino.min_mono (a x y : ℚ) (hxy : x ≤ y) : Arduino.min a x ≤ Arduino.min a y := by
  unfold Arduino.min
  split_ifs <;> linarith

theorem Arduino.max_mono (a x y : ℚ) (hxy : x ≤ y) : Arduino.max a x ≤ Arduino.max a y := by
  unfold Arduino.max
  split_ifs <;> linarith

theorem Arduino.clamp_of_mem (hi x : ℚ) (h0 : 0 ≤ x) (h1 : x ≤ hi) :
    Arduino.max 0 (Arduino.min hi x) = x := by
  unfold Arduino.max Arduino.min
  split_ifs <;> linarith

/-- The weighted sum `raw_cis` is between 0 and 1 for every input. -/
theorem raw_cis_bounds (hr temp humidity gas machineStress spo2 noise : ℚ) :
    0 ≤ SentinelEngine.raw_cis hr temp humidity gas machineStress spo2 noise ∧
    SentinelEngine.raw_cis hr temp humidity gas machineStress spo2 noise ≤ 1 := by
  have h1 := constrain_bounds ((hr - 72) / 108) 0 1 (by norm_num)
  have h2 := constrain_bounds ((98 - spo2) / 10) 0 1 (by norm_num)
  have h3 := constrain_bounds ((noise - 60) / 40) 0 1 (by norm_num)
  have h4 := constrain_bounds ((temp - 30) / 15) 0 1 (by norm_num)
  have h5 := constrain_bounds (gas / 100) 0 1 (by norm_num)
  have h6 := constrain_bounds (machineStress / 100) 0 1 (by norm_num)
  have h7 : 0 ≤ Arduino.min 1 (constrain ((temp - 30) / 15) 0 1 + constrain (gas / 100) 0 1) ∧
      Arduino.min 1 (constrain ((temp - 30) / 15) 0 1 + constrain (gas / 100) 0 1) ≤ 1 := by
    unfold Arduino.min
    split_ifs <;> constructor <;> linarith
  simp only [SentinelEngine.raw_cis]
  constructor <;> norm_num <;> linarith [h1.1, h1.2, h2.1, h2.2, h3.1, h3.2, h6.1, h6.2, h7.1, h7.2]

/-- The weighted sum `raw_cis` grows with `hr`, `temp`, `gas`, `machineStress` and `noise`, falls
  with `spo2`, and ignores `humidity`. -/
theorem raw_cis_mono (hr hr' temp temp' humidity humidity' gas gas' machineStress machineStress'
    spo2 spo2' noise noise' : ℚ)
    (hhr : hr ≤ hr') (htemp : temp ≤ temp') (hgas : gas ≤ gas')
    (hms : machineStress ≤ machineStress') (hspo2 : spo2' ≤ spo2) (hnoise : noise ≤ noise') :
    SentinelEngine.raw_cis hr temp humidity gas machineStress spo2 noise ≤
      SentinelEngine.raw_cis hr' temp' humidity' gas' machineStress' spo2' noise' := by
  have h1 := constrain_mono ((hr - 72) / 108) ((hr' - 72) / 108) 0 1 (by norm_num)
    (by linarith)
  have h2 := constrain_mono ((98 - spo2) / 10) ((98 - spo2') / 10) 0 1 (by norm_num)
    (by linarith)
  have h3 := constrain_mono ((noise - 60) / 40) ((noise' - 60) / 40) 0 1 (by norm_num)
    (by linarith)
  have h4 := constrain_mono ((temp - 30) / 15) ((temp' - 30) / 15) 0 1 (by norm_num)
    (by linarith)
  have h5 := constrain_mono (gas / 100) (gas' / 100) 0 1 (by norm_num) (by linarith)
  have h6 := constrain_mono (machineStress / 100) (machineStress' / 100) 0 1 (by norm_num)
    (by linarith)
  have h7 := Arduino.min_mono 1 _ _ (add_le_add h4 h5)
  simp only [SentinelEngine.raw_cis]
  norm_num
  linarith

theorem edgeCIS_mono (self self' : SentinelEngine) (hr hr' temp temp' humidity humidity' gas gas'
    machineStress machineStress' spo2 spo2' noise noise' : ℚ)
    (hhr : hr ≤ hr') (htemp : temp ≤ temp') (hgas : gas ≤ gas')
    (hms : machineStress ≤ machineStress') (hspo2 : spo2' ≤ spo2) (hnoise : noise ≤ noise') :
    (self.computeCIS hr temp humidity gas machineStress spo2 noise).edgeCIS ≤
      (self'.computeCIS hr' temp' humidity' gas' machineStress' spo2' noise').edgeCIS := by
  simp only [SentinelEngine.computeCIS]
  exact Arduino.max_mono 0 _ _ (Arduino.min_mono 1 _ _
    (raw_cis_mono hr hr' temp temp' humidity humidity' gas gas' machineStress machineStress'
      spo2 spo2' noise noise' hhr htemp hgas hms hspo2 hnoise))

/-! ## Floating point: lemmas on the rounding -/

theorem pow2_eq_zpow (k : Int) : pow2 k = (2 : ℚ) ^ k := by
  unfold pow2
  split_ifs with h
  · obtain ⟨n, rfl⟩ := Int.eq_ofNat_of_zero_le h
    simp
  · obtain ⟨n, hn⟩ := Int.exists_eq_neg_ofNat (le_of_lt (not_le.mp h))
    subst hn
    simp

theorem pow2_pos (k : Int) : 0 < pow2 k := by
  rw [pow2_eq_zpow]
  positivity

/-- The three levels are reached in `float` arithmetic as well, at the inputs used for the
  exact arithmetic: all risks saturated, heart rate and machine stress saturated, baselines. -/
theorem computeCISFloat_levels_reached :
    (({} : SentinelEngine).computeCISFloat 180 45 50 100 100 88 100).map
      (fun s => (s.edgeCIS, s.edgeCISLevel)) = some (1, "Critical") ∧
    (({} : SentinelEngine).computeCISFloat 180 30 50 0 100 98 60).map
      (fun s => (s.edgeCIS, s.edgeCISLevel)) = some (1 / 2, "Warning") ∧
    (({} : SentinelEngine).computeCISFloat 72 30 50 0 0 98 60).map
      (fun s => (s.edgeCIS, s.edgeCISLevel)) = some (0, "Safe") := by
  refine ⟨by decide!, by decide!, by decide!⟩

/-- Next to the threshold 0.40 the two arithmetics part: where the exact index is 2/5, the
  `float` index is the `float` just above it (0x1.99999ap-2) at hr 126, machineStress 100, and
  the one just below it (0x1.999998p-2, level `Safe`) at temp 45, machineStress 25, spo2 93,
  noise 70. Which inputs give an index of exactly 0.40 is therefore a matter of rounding. -/
theorem computeCISFloat_next_to_warning_threshold :
    (({} : SentinelEngine).computeCISFloat 126 30 50 0 100 98 60).map
      (fun s => (s.edgeCIS, s.edgeCISLevel)) = some (13421773 / 33554432, "Warning") ∧
    (({} : SentinelEngine).computeCIS 126 30 50 0 100 98 60).edgeCIS = 2 / 5 ∧
    (({} : SentinelEngine).computeCISFloat 72 45 50 0 25 93 70).map
      (fun s => (s.edgeCIS, s.edgeCISLevel)) = some (3355443 / 8388608, "Safe") ∧
    (({} : SentinelEngine).computeCIS 72 45 50 0 25 93 70).edgeCIS = 2 / 5 := by
  refine ⟨by decide!, ?_, by decide!, ?_⟩ <;>
    norm_num [SentinelEngine.computeCIS, SentinelEngine.raw_cis, constrain, Arduino.min,
      Arduino.max]

/-! ## Scoring engine: further settled claims on `computeCIS` -/

/-- C11: for every humidity and all other inputs at or below their safe baselines (hr at most
  72, spo2 at least 98, noise at most 60, temp at most 30, gas and machineStress at most 0),
  `computeCIS` yields `edgeCIS` 0, level `Safe`, `edgeFatigue` 0 and `edgeStress` 0. -/
theorem computeCIS_at_or_below_baselines (self : SentinelEngine)
    (hr temp humidity gas machineStress spo2 noise : ℚ)
    (hhr : hr ≤ 72) (hspo2 : 98 ≤ spo2) (hnoise : noise ≤ 60) (htemp : temp ≤ 30)
    (hgas : gas ≤ 0) (hms : machineStress ≤ 0) :
    (self.computeCIS hr temp humidity gas machineStress spo2 noise).edgeCIS = 0 ∧
    (self.computeCIS hr temp humidity gas machineStress spo2 noise).edgeCISLevel = "Safe" ∧
    (self.computeCIS hr temp humidity gas machineStress spo2 noise).edgeFatigue = 0 ∧
    (self.computeCIS hr temp humidity gas machineStress spo2 noise).edgeStress = 0 := by
  have h1 := constrain_of_le_low ((hr - 72) / 108) 0 1 (by norm_num)
    (div_nonpos_of_nonpos_of_nonneg (by linarith) (by norm_num))
  have h2 := constrain_of_le_low ((98 - spo2) / 10) 0 1 (by norm_num)
    (div_nonpos_of_nonpos_of_nonneg (by linarith) (by norm_num))
  have h3 := constrain_of_le_low ((noise - 60) / 40) 0 1 (by norm_num)
    (div_nonpos_of_nonpos_of_nonneg (by linarith) (by norm_num))
  have h4 := constrain_of_le_low ((temp - 30) / 15) 0 1 (by norm_num)
    (div_nonpos_of_nonpos_of_nonneg (by linarith) (by norm_num))
  have h5 := constrain_of_le_low (gas / 100) 0 1 (by norm_num)
    (div_nonpos_of_nonpos_of_nonneg hgas (by norm_num))
  have h6 := constrain_of_le_low (machineStress / 100) 0 1 (by norm_num)
    (div_nonpos_of_nonpos_of_nonneg hms (by norm_num))
  have hraw : SentinelEngine.raw_cis hr temp humidity gas machineStress spo2 noise = 0 := by
    simp only [SentinelEngine.raw_cis, h1, h2, h3, h4, h5, h6]
    norm_num [Arduino.min]
  simp only [SentinelEngine.computeCIS, hraw, h1, h3]
  norm_num [Arduino.min, Arduino.max]

theorem computeCIS_at_or_below_baselines_witness :
    (({} : SentinelEngine).computeCIS 72 30 55 0 0 98 60).edgeCIS = 0 ∧
    (({} : SentinelEngine).computeCIS 72 30 55 0 0 98 60).edgeCISLevel = "Safe" ∧
    (({} : SentinelEngine).computeCIS 72 30 55 0 0 98 60).edgeFatigue = 0 ∧
    (({} : SentinelEngine).computeCIS 72 30 55 0 0 98 60).edgeStress = 0 :=
  computeCIS_at_or_below_baselines {} 72 30 55 0 0 98 60 (by norm_num) (by norm_num)
    (by norm_num) (by norm_num) (by norm_num) (by norm_num)

/-- C17: the fusion weights sum to 1 and the weighted sum `raw_cis` lies between 0 and 1 for
  every input, so the final clamp of `computeCIS` changes nothing: `edgeCIS` is `raw_cis`. -/
theorem computeCIS_clamp_is_identity (self : SentinelEngine)
    (hr temp humidity gas machineStress spo2 noise : ℚ) :
    (0.2 + 0.2 + 0.1 + 0.2 + 0.3 : ℚ) = 1 ∧
    0 ≤ SentinelEngine.raw_cis hr temp humidity gas machineStress spo2 noise ∧
    SentinelEngine.raw_cis hr temp humidity gas machineStress spo2 noise ≤ 1 ∧
    (self.computeCIS hr temp humidity gas machineStress spo2 noise).edgeCIS =
      SentinelEngine.raw_cis hr temp humidity gas machineStress spo2 noise := by
  have hb := raw_cis_bounds hr temp humidity gas machineStress spo2 noise
  refine ⟨by norm_num, hb.1, hb.2, ?_⟩
  simp only [SentinelEngine.computeCIS]
  exact Arduino.clamp_of_mem 1 _ hb.1 hb.2

/-- C20: holding the other inputs fixed, raising `hr`, `noise`, `temp`, `gas` or
  `machineStress` never decreases the `edgeCIS` that `computeCIS` computes, raising `spo2` never
  increases it, and `edgeCIS` is the same for every `humidity`. -/
theorem computeCIS_edgeCIS_monotone (self : SentinelEngine)
    (hr temp humidity gas machineStress spo2 noise : ℚ) :
    (∀ hr', hr ≤ hr' →
      (self.computeCIS hr temp humidity gas machineStress spo2 noise).edgeCIS ≤
        (self.computeCIS hr' temp humidity gas machineStress spo2 noise).edgeCIS) ∧
    (∀ noise', noise ≤ noise' →
      (self.computeCIS hr temp humidity gas machineStress spo2 noise).edgeCIS ≤
        (self.computeCIS hr temp humidity gas machineStress spo2 noise').edgeCIS) ∧
    (∀ temp', temp ≤ temp' →
      (self.computeCIS hr temp humidity gas machineStress spo2 noise).edgeCIS ≤
        (self.computeCIS hr temp' humidity gas machineStress spo2 noise).edgeCIS) ∧
    (∀ gas', gas ≤ gas' →
      (self.computeCIS hr temp humidity gas machineStress spo2 noise).edgeCIS ≤
        (self.computeCIS hr temp humidity gas' machineStress spo2 noise).edgeCIS) ∧
    (∀ machineStress', machineStress ≤ machineStress' →
      (self.computeCIS hr temp humidity gas machineStress spo2 noise).edgeCIS ≤
        (self.computeCIS hr temp humidity gas machineStress' spo2 noise).edgeCIS) ∧
    (∀ spo2', spo2 ≤ spo2' →
      (self.computeCIS hr temp humidity gas machineStress spo2' noise).edgeCIS ≤
        (self.computeCIS hr temp humidity gas machineStress spo2 noise).edgeCIS) ∧
    (∀ humidity',
      (self.computeCIS hr temp humidity' gas machineStress spo2 noise).edgeCIS =
        (self.computeCIS hr temp humidity gas machineStress spo2 noise).edgeCIS) := by
  refine ⟨?_, ?_, ?_, ?_, ?_, ?_, ?_⟩
  · intro hr' h
    exact edgeCIS_mono self self _ _ _ _ _ _ _ _ _ _ _ _ _ _ h le_rfl le_rfl le_rfl le_rfl le_rfl
  · intro noise' h
    exact edgeCIS_mono self self _ _ _ _ _ _ _ _ _ _ _ _ _ _ le_rfl le_rfl le_rfl le_rfl le_rfl h
  · intro temp' h
    exact edgeCIS_mono self self _ _ _ _ _ _ _ _ _ _ _ _ _ _ le_rfl h le_rfl le_rfl le_rfl le_rfl
  · intro gas' h
    exact edgeCIS_mono self self _ _ _ _ _ _ _ _ _ _ _ _ _ _ le_rfl le_rfl h le_rfl le_rfl le_rfl
  · intro machineStress' h
    exact edgeCIS_mono self self _ _ _ _ _ _ _ _ _ _ _ _ _ _ le_rfl le_rfl le_rfl h le_rfl le_rfl
  · intro spo2' h
    exact edgeCIS_mono self self _ _ _ _ _ _ _ _ _ _ _ _ _ _ le_rfl le_rfl le_rfl le_rfl h le_rfl
  · intro humidity'
    exact le_antisymm
      (edgeCIS_mono self self _ _ _ _ _ _ _ _ _ _ _ _ _ _ le_rfl le_rfl le_rfl le_rfl le_rfl le_rfl)
      (edgeCIS_mono self self _ _ _ _ _ _ _ _ _ _ _ _ _ _ le_rfl le_rfl le_rfl le_rfl le_rfl le_rfl)

theorem computeCIS_edgeCIS_monotone_witness :
    ((72 : ℚ) ≤ 126 ∧
      (({} : SentinelEngine).computeCIS 72 30 50 0 100 98 60).edgeCIS ≤
        (({} : SentinelEngine).computeCIS 126 30 50 0 100 98 60).edgeCIS) ∧
    ((93 : ℚ) ≤ 98 ∧
      (({} : SentinelEngine).computeCIS 72 30 50 0 100 98 60).edgeCIS ≤
        (({} : SentinelEngine).computeCIS 72 30 50 0 100 93 60).edgeCIS) :=
  ⟨⟨by norm_num,
      (computeCIS_edgeCIS_monotone {} 72 30 50 0 100 98 60).1 126 (by norm_num)⟩,
    ⟨by norm_num,
      (computeCIS_edgeCIS_monotone {} 72 30 50 0 100 93 60).2.2.2.2.2.1 98 (by norm_num)⟩⟩

/-! ## Scoring engine: further settled claims on `computePdM` -/

/-- A guarded update `if x > t then health - (x - t) * w else health` subtracts the weight times
  the excess `max 0 (x - t)`. -/
theorem guarded_penalty (health x t w : ℚ) :
    (if x > t then health - (x - t) * w else health) = health - w * max 0 (x - t) := by
  split_ifs with h
  · rw [max_eq_right (by linarith)]
    ring
  · rw [max_eq_left (by linarith)]
    ring

/-- The local `health` before the clamp, as one expression. -/
theorem health_eq (engineLoad coolantTemp vibration degradation stressIndex : ℚ) :
    SentinelEngine.health engineLoad coolantTemp vibration degradation stressIndex =
      100 - 1.5 * max 0 (engineLoad - 80) - 2 * max 0 (coolantTemp - 85)
        - 3 * max 0 (vibration - 6) - 500 * degradation - 0.5 * max 0 (stressIndex - 60) := by
  simp only [SentinelEngine.health, guarded_penalty]
  ring

theorem edgePdmHealth_eq (self : SentinelEngine)
    (engineLoad coolantTemp vibration degradation stressIndex : ℚ) :
    (self.computePdM engineLoad coolantTemp vibration degradation stressIndex).edgePdmHealth =
      Arduino.max 0 (Arduino.min 100
        (SentinelEngine.health engineLoad coolantTemp vibration degradation stressIndex)) := by
  simp only [SentinelEngine.computePdM]

/-- The local `health` never grows when the stressors grow. -/
theorem health_anti (engineLoad engineLoad' coolantTemp coolantTemp' vibration vibration'
    degradation degradation' stressIndex stressIndex' : ℚ)
    (h1 : engineLoad ≤ engineLoad') (h2 : coolantTemp ≤ coolantTemp')
    (h3 : vibration ≤ vibration') (h4 : degradation ≤ degradation')
    (h5 : stressIndex ≤ stressIndex') :
    SentinelEngine.health engineLoad' coolantTemp' vibration' degradation' stressIndex' ≤
      SentinelEngine.health engineLoad coolantTemp vibration degradation stressIndex := by
  rw [health_eq, health_eq]
  have m1 : max 0 (engineLoad - 80) ≤ max 0 (engineLoad' - 80) :=
    max_le_max le_rfl (by linarith)
  have m2 : max 0 (coolantTemp - 85) ≤ max 0 (coolantTemp' - 85) :=
    max_le_max le_rfl (by linarith)
  have m3 : max 0 (vibration - 6) ≤ max 0 (vibration' - 6) :=
    max_le_max le_rfl (by linarith)
  have m5 : max 0 (stressIndex - 60) ≤ max 0 (stressIndex' - 60) :=
    max_le_max le_rfl (by linarith)
  norm_num
  linarith

theorem edgePdmHealth_anti (self self' : SentinelEngine) (engineLoad engineLoad' coolantTemp
    coolantTemp' vibration vibration' degradation degradation' stressIndex stressIndex' : ℚ)
    (h1 : engineLoad ≤ engineLoad') (h2 : coolantTemp ≤ coolantTemp')
    (h3 : vibration ≤ vibration') (h4 : degradation ≤ degradation')
    (h5 : stressIndex ≤ stressIndex') :
    (self'.computePdM engineLoad' coolantTemp' vibration' degradation'
        stressIndex').edgePdmHealth ≤
      (self.computePdM engineLoad coolantTemp vibration degradation stressIndex).edgePdmHealth := by
  rw [edgePdmHealth_eq, edgePdmHealth_eq]
  exact Arduino.max_mono 0 _ _ (Arduino.min_mono 100 _ _
    (health_anti engineLoad engineLoad' coolantTemp coolantTemp' vibration vibration'
      degradation degradation' stressIndex stressIndex' h1 h2 h3 h4 h5))

/-- C14: `edgePdmHealth` is monotonically non-increasing in each stressor: raising one of
  `engineLoad`, `coolantTemp`, `vibration`, `degradation`, `stressIndex` while the other four
  are held fixed never increases the health that `computePdM` computes. -/
theorem computePdM_edgePdmHealth_antitone (self : SentinelEngine)
    (engineLoad coolantTemp vibration degradation stressIndex : ℚ) :
    (∀ engineLoad', engineLoad ≤ engineLoad' →
      (self.computePdM engineLoad' coolantTemp vibration degradation stressIndex).edgePdmHealth ≤
        (self.computePdM engineLoad coolantTemp vibration degradation stressIndex).edgePdmHealth)
    ∧ (∀ coolantTemp', coolantTemp ≤ coolantTemp' →
      (self.computePdM engineLoad coolantTemp' vibration degradation stressIndex).edgePdmHealth ≤
        (self.computePdM engineLoad coolantTemp vibration degradation stressIndex).edgePdmHealth)
    ∧ (∀ vibration', vibration ≤ vibration' →
      (self.computePdM engineLoad coolantTemp vibration' degradation stressIndex).edgePdmHealth ≤
        (self.computePdM engineLoad coolantTemp vibration degradation stressIndex).edgePdmHealth)
    ∧ (∀ degradation', degradation ≤ degradation' →
      (self.computePdM engineLoad coolantTemp vibration degradation' stressIndex).edgePdmHealth ≤
        (self.computePdM engineLoad coolantTemp vibration degradation stressIndex).edgePdmHealth)
    ∧ (∀ stressIndex', stressIndex ≤ stressIndex' →
      (self.computePdM engineLoad coolantTemp vibration degradation stressIndex').edgePdmHealth ≤
        (self.computePdM engineLoad coolantTemp vibration degradation stressIndex).edgePdmHealth)
    := by
  refine ⟨?_, ?_, ?_, ?_, ?_⟩
  · intro x h
    exact edgePdmHealth_anti self self _ _ _ _ _ _ _ _ _ _ h le_rfl le_rfl le_rfl le_rfl
  · intro x h
    exact edgePdmHealth_anti self self _ _ _ _ _ _ _ _ _ _ le_rfl h le_rfl le_rfl le_rfl
  · intro x h
    exact edgePdmHealth_anti self self _ _ _ _ _ _ _ _ _ _ le_rfl le_rfl h le_rfl le_rfl
  · intro x h
    exact edgePdmHealth_anti self self _ _ _ _ _ _ _ _ _ _ le_rfl le_rfl le_rfl h le_rfl
  · intro x h
    exact edgePdmHealth_anti self self _ _ _ _ _ _ _ _ _ _ le_rfl le_rfl le_rfl le_rfl h

theorem computePdM_edgePdmHealth_antitone_witness :
    ((6 : ℚ) ≤ 10 ∧
      (({} : SentinelEngine).computePdM 100 100 10 0 60).edgePdmHealth ≤
        (({} : SentinelEngine).computePdM 100 100 6 0 60).edgePdmHealth) ∧
    ((0 : ℚ) ≤ 1 / 100 ∧
      (({} : SentinelEngine).computePdM 100 100 6 (1 / 100) 60).edgePdmHealth ≤
        (({} : SentinelEngine).computePdM 100 100 6 0 60).edgePdmHealth) :=
  ⟨⟨by norm_num,
      (computePdM_edgePdmHealth_antitone {} 100 100 6 0 60).2.2.1 10 (by norm_num)⟩,
    ⟨by norm_num,
      (computePdM_edgePdmHealth_antitone {} 100 100 6 0 60).2.2.2.1 (1 / 100) (by norm_num)⟩⟩

/-! ## Envelope codec: the IV field, the terminator store, and failure of `encryptPayload` -/

theorem generateRandomIV_length (P : Platform) (len : Nat) :
    (generateRandomIV P len).length = len := by
  simp [generateRandomIV]

theorem generateRandomIV_get (P : Platform) (len i : Nat) (h : i < len) :
    ((generateRandomIV P len)[i]?).map (fun b => b.val) = some (P.esp_random i % 256) := by
  simp [generateRandomIV, List.getElem?_map, List.getElem?_range h]

/-- The `iv` field a successful `encryptPayload` writes: the string `base64Encode` returns for
  the bytes `generateRandomIV` drew, whatever the plaintext and the prior `out`; it is the
  encoding of those bytes when the allocation inside `base64Encode` succeeds. -/
theorem encryptPayload_iv_field (P : Platform) (plaintext : Bytes) (out : EncryptedPayload)
    (hret : (encryptPayload P plaintext out).ret = true) :
    (encryptPayload P plaintext out).out.iv =
      (base64Encode P 1 (generateRandomIV P GCM_IV_SIZE)).1 ∧
    (encryptPayload P plaintext out).calls.take GCM_IV_SIZE =
      List.replicate GCM_IV_SIZE Call.esp_random ∧
    (P.malloc 1 = true → (∀ c ∈ P.base64_encode (generateRandomIV P GCM_IV_SIZE), c ≠ 0) →
      (encryptPayload P plaintext out).out.iv =
        P.base64_encode (generateRandomIV P GCM_IV_SIZE)) := by
  obtain ⟨h1, h2, _, _, hout⟩ := encryptPayload_of_success P plaintext out hret
  refine ⟨by rw [hout], ((encryptPayload_length_check P plaintext out).2 ⟨h1, h2⟩).1, ?_⟩
  intro hm hnul
  rw [hout]
  simp only [base64Encode, hm, Bool.not_true, Bool.false_eq_true, if_false]
  rw [cString_terminated]
  exact cString_of_no_nul _ hnul

/-- The `iv` field does not depend on the plaintext or on the prior contents of `out`. -/
theorem encryptPayload_iv_independent (P : Platform) (p1 p2 : Bytes)
    (out1 out2 : EncryptedPayload)
    (h1 : (encryptPayload P p1 out1).ret = true) (h2 : (encryptPayload P p2 out2).ret = true) :
    (encryptPayload P p1 out1).out.iv = (encryptPayload P p2 out2).out.iv := by
  rw [(encryptPayload_iv_field P p1 out1 h1).1, (encryptPayload_iv_field P p2 out2 h2).1]

theorem Demo.encode_eq_nil (data : Bytes) (h : Demo.encode data = []) : data = [] := by
  cases data with
  | nil => rfl
  | cons b rest => simp [Demo.encode] at h

/-- C16: the `iv` field is not always the encoding of 12 drawn bytes. On `Demo.lowMemory`, where
  the `malloc` inside `base64Encode` returns null, `encryptPayload` on the text `Hi` still
  returns true, and the `iv` field it leaves is the empty string, which is the encoding of no
  12 bytes, while the 12 bytes were drawn. -/
theorem encryptPayload_true_with_empty_iv :
    (encryptPayload Demo.lowMemory [72, 105] ⟨[], [], []⟩).ret = true ∧
    (encryptPayload Demo.lowMemory [72, 105] ⟨[], [], []⟩).out.iv = [] ∧
    (generateRandomIV Demo.lowMemory GCM_IV_SIZE).length = 12 ∧
    ¬ ∃ data : Bytes, data.length = 12 ∧
      (encryptPayload Demo.lowMemory [72, 105] ⟨[], [], []⟩).out.iv =
        Demo.lowMemory.base64_encode data := by
  have hiv : (encryptPayload Demo.lowMemory [72, 105] ⟨[], [], []⟩).out.iv = [] := by decide
  refine ⟨by decide, hiv, by decide, ?_⟩
  rintro ⟨data, hlen, heq⟩
  rw [hiv] at heq
  have hnil : data = [] := Demo.encode_eq_nil data heq.symm
  rw [hnil] at hlen
  cases hlen

/-- On an envelope on which every step up to the terminator store succeeds, the store is inside
  the array `plaintext` exactly when the ciphertext is shorter than `MAX_PLAINTEXT`. -/
theorem terminator_store_in_bounds_iff (P : Platform) (ivB64 ctB64 atB64 ct pt : Bytes)
    (h : Authenticates P ivB64 ctB64 atB64 ct pt) :
    decryptPayload P ivB64 ctB64 atB64 ≠ none ↔ ct.length < MAX_PLAINTEXT := by
  constructor
  · intro hne
    by_contra hge
    apply hne
    obtain ⟨iv, tag, ⟨h1, h2, h3, h4, h5, h6, h7⟩, hkey, hdec, hlen⟩ := h
    rw [decryptPayload_of_checks_pass P ivB64 ctB64 atB64 iv tag ct h1 h2 h3 h4 h5 h6 h7]
    have hoob : (written ((List.range MAX_PLAINTEXT).map P.stack) pt).length ≤ ct.length := by
      simp [written, hlen]
      omega
    simp only [hkey, ne_eq, not_true_eq_false, if_false, hdec,
      store_out_of_bounds _ _ _ hoob, Option.map_none']
  · intro hlt hnone
    have hres := decryptPayload_of_authenticates P ivB64 ctB64 atB64 ct pt h hlt
    rw [hnone] at hres
    cases hres

set_option maxRecDepth 1000000 in
theorem Demo.sealedLongest_authenticates :
    Authenticates Demo Demo.sealedLongest.iv Demo.sealedLongest.ct Demo.sealedLongest.at_
      (List.replicate 512 66) (List.replicate 512 65) :=
  ⟨generateRandomIV Demo 12, List.replicate 16 198,
    ⟨by decide, by decide, by decide, by decide, by decide, by decide, by decide⟩,
    by decide, by decide, by decide⟩

set_option maxRecDepth 1000000 in
/-- C18: the terminator store is not always inside the array. The envelope
  `Demo.sealedLongest` passes every check of `decryptPayload` with a decoded ciphertext of
  `ctLen` = 512 = `MAX_PLAINTEXT` bytes, so `ctLen < MAX_PLAINTEXT` fails, and the store
  `plaintext[ctLen] = 0` falls outside the 512-byte array `plaintext`. -/
theorem terminator_store_out_of_bounds :
    Authenticates Demo Demo.sealedLongest.iv Demo.sealedLongest.ct Demo.sealedLongest.at_
      (List.replicate 512 66) (List.replicate 512 65) ∧
    (List.replicate 512 (66 : Byte)).length = MAX_PLAINTEXT ∧
    ¬ (List.replicate 512 (66 : Byte)).length < MAX_PLAINTEXT ∧
    store (written ((List.range MAX_PLAINTEXT).map Demo.stack) (List.replicate 512 65))
      (List.replicate 512 (66 : Byte)).length 0 = none ∧
    decryptPayload Demo Demo.sealedLongest.iv Demo.sealedLongest.ct Demo.sealedLongest.at_
      = none := by
  refine ⟨Demo.sealedLongest_authenticates, by decide, by decide, ?_, ?_⟩
  · exact store_out_of_bounds _ _ _ (by decide)
  · by_contra hne
    have hlt := (terminator_store_in_bounds_iff Demo _ _ _ _ _
      Demo.sealedLongest_authenticates).1 hne
    exact absurd hlt (by decide)

/-- C19: `encryptPayload` is atomic on failure. Whenever it returns false the caller's `out`
  is what it was before the call, so a changed `out` means it returned true; and each of the
  failure causes (empty or oversized plaintext, failed allocation of the ciphertext buffer,
  failed key installation, failed encryption) makes it return false. -/
theorem encryptPayload_atomic_on_failure (P : Platform) (plaintext : Bytes)
    (out : EncryptedPayload) :
    ((encryptPayload P plaintext out).ret = false → (encryptPayload P plaintext out).out = out) ∧
    ((encryptPayload P plaintext out).out ≠ out → (encryptPayload P plaintext out).ret = true) ∧
    ((strlen plaintext = 0 ∨ MAX_PLAINTEXT < strlen plaintext ∨ P.malloc 0 = false ∨
        P.gcm_setkey HARMONY_AES_KEY (AES_KEY_SIZE * 8) ≠ 0 ∨
        (P.gcm_crypt_and_tag HARMONY_AES_KEY (generateRandomIV P GCM_IV_SIZE)
          (cString plaintext)).1 ≠ 0) →
      (encryptPayload P plaintext out).ret = false) := by
  have hatomic : (encryptPayload P plaintext out).ret = false →
      (encryptPayload P plaintext out).out = out := by
    intro hret
    by_cases h1 : strlen plaintext = 0 ∨ strlen plaintext > MAX_PLAINTEXT
    · simp [encryptPayload, h1]
    by_cases h2 : P.malloc 0 = true
    swap
    · simp [encryptPayload, h1, h2]
    by_cases h3 : P.gcm_setkey HARMONY_AES_KEY (AES_KEY_SIZE * 8) = 0
    swap
    · simp [encryptPayload, h1, h2, h3]
    by_cases h4 : (P.gcm_crypt_and_tag HARMONY_AES_KEY (generateRandomIV P GCM_IV_SIZE)
        (cString plaintext)).1 = 0
    swap
    · simp [encryptPayload, take_strlen, h1, h2, h3, h4]
    · simp [encryptPayload, take_strlen, h1, h2, h3, h4] at hret
  refine ⟨hatomic, ?_, ?_⟩
  · intro hne
    by_contra hret
    exact hne (hatomic (by simpa using hret))
  · intro hcause
    by_contra hret
    have htrue : (encryptPayload P plaintext out).ret = true := by simpa using hret
    obtain ⟨h1, h2, h3, h4, _⟩ := encryptPayload_of_success P plaintext out htrue
    have hm : P.malloc 0 = true := by
      by_contra hm
      have hg : ¬ (strlen plaintext = 0 ∨ strlen plaintext > MAX_PLAINTEXT) := by
        rintro (h | h) <;> omega
      simp [encryptPayload, hg, hm] at htrue
    rcases hcause with h | h | h | h | h
    · omega
    · omega
    · rw [hm] at h
      cases h
    · exact h h3
    · exact h h4

set_option maxRecDepth 100000 in
theorem encryptPayload_atomic_on_failure_witness :
    ((encryptPayload Demo.noMemory [72, 105] Demo.sealed).ret = false ∧
      (encryptPayload Demo.noMemory [72, 105] Demo.sealed).out = Demo.sealed) ∧
    ((encryptPayload Demo [72, 105] ⟨[], [], []⟩).out ≠ ⟨[], [], []⟩ ∧
      (encryptPayload Demo [72, 105] ⟨[], [], []⟩).ret = true) ∧
    (MAX_PLAINTEXT < strlen (List.replicate 513 65) ∧
      (encryptPayload Demo (List.replicate 513 65) Demo.sealed).ret = false) :=
  ⟨⟨by decide, (encryptPayload_atomic_on_failure Demo.noMemory [72, 105] Demo.sealed).1
      (by decide)⟩,
    ⟨by decide, (encryptPayload_atomic_on_failure Demo [72, 105] ⟨[], [], []⟩).2.1 (by decide)⟩,
    ⟨by decide, (encryptPayload_atomic_on_failure Demo (List.replicate 513 65) Demo.sealed).2.2
      (Or.inr (Or.inl (by decide)))⟩⟩

end HarmonyAura
